import Mathlib

/-!
Verification of the CSG / BSP boolean-operations engine
(`BooleanOperations` module: `Vertex`, `Polygon`, `BSPNode`, `CSG`,
with the 3-component vector type it consumes).

Embedding conventions:
* JavaScript numbers are modelled as exact rationals (`ℚ`); `Math.sqrt`
  is modelled by `sqrtQ`, which agrees with the real square root on
  rationals whose numerator and denominator are perfect squares (all
  concrete inputs used below are of that form).
* The source mutates vectors and polygons in place but, at the points
  the value-level definitions below embed, always on freshly cloned
  values; the value-level embedding passes values.  Object identity
  (the aliasing introduced by `build` storing `polygons[0].plane` on
  the node without cloning it) is modelled separately by the explicit
  store-passing embedding in the `Heap` namespace further down.
* `BSPNode.build` recurses on data with no structural measure; the JS
  code has no termination guarantee, so the embedded `Node.buildOn`
  takes an explicit fuel parameter and returns the node unchanged when
  fuel runs out.  All theorems quantify over the fuel.
* JS code that dereferences a missing element (`undefined.x` raising a
  `TypeError`) is embedded at `Option` level (`mkPolygon?`,
  `fromGeometry?`): `none` models the thrown exception.
-/

attribute [local semireducible] Rat.add Rat.mul Rat.inv Rat.sub

/-- Largest `j ≤ k` with `j * j ≤ n` (structurally recursive so that the
kernel can evaluate it on concrete inputs). -/
def natSqrtAux (n : ℕ) : ℕ → ℕ
  | 0 => 0
  | k + 1 => if (k + 1) * (k + 1) ≤ n then k + 1 else natSqrtAux n k

/-- Floor square root on naturals. -/
def natSqrt (n : ℕ) : ℕ := natSqrtAux n n

/-- Square-root model for `Math.sqrt` on exact rationals: exact whenever
numerator and denominator are perfect squares (all concrete inputs used
below are of that form). -/
def sqrtQ (q : ℚ) : ℚ :=
  (natSqrt q.num.toNat : ℚ) / (natSqrt q.den : ℚ)

/-- The 3-component vector consumed by the engine (`Vector.Vec3`). -/
structure Vec3 where
  x : ℚ
  y : ℚ
  z : ℚ
deriving DecidableEq, Repr

instance : Inhabited Vec3 := ⟨⟨0, 0, 0⟩⟩

/-- `Vec3.add` with a vector argument. -/
def Vec3.add (a b : Vec3) : Vec3 := ⟨a.x + b.x, a.y + b.y, a.z + b.z⟩

/-- `Vec3.sub` with a vector argument. -/
def Vec3.sub (a b : Vec3) : Vec3 := ⟨a.x - b.x, a.y - b.y, a.z - b.z⟩

/-- `Vec3.mul` with a scalar argument. -/
def Vec3.mul (a : Vec3) (s : ℚ) : Vec3 := ⟨a.x * s, a.y * s, a.z * s⟩

/-- `Vec3.dot`. -/
def Vec3.dot (a b : Vec3) : ℚ := a.x * b.x + a.y * b.y + a.z * b.z

/-- `Vec3.cross`. -/
def Vec3.cross (a b : Vec3) : Vec3 :=
  ⟨a.y * b.z - a.z * b.y, a.z * b.x - a.x * b.z, a.x * b.y - a.y * b.x⟩

/-- `Vec3.lengthSq`. -/
def Vec3.lengthSq (a : Vec3) : ℚ := a.x * a.x + a.y * a.y + a.z * a.z

/-- `Vec3.length` (`Math.sqrt` modelled by `sqrtQ`). -/
def Vec3.length (a : Vec3) : ℚ := sqrtQ a.lengthSq

/-- `Vec3.normalize`: divides by the length unless it is zero. -/
def Vec3.normalize (a : Vec3) : Vec3 :=
  let len := a.length
  if len = 0 then a else ⟨a.x / len, a.y / len, a.z / len⟩

/-- `Vertex`: position, normal and uv pair. -/
structure Vertex where
  position : Vec3
  normal : Vec3
  uv : ℚ × ℚ
deriving DecidableEq, Repr

instance : Inhabited Vertex := ⟨⟨default, default, (0, 0)⟩⟩

/-- The `Vertex` constructor: `normal` defaults to the zero vector and
`uv` defaults to `[0, 0]` when absent. -/
def mkVertex (position : Vec3) (normal : Option Vec3) (uv : Option (ℚ × ℚ)) : Vertex :=
  ⟨position, normal.getD ⟨0, 0, 0⟩, uv.getD (0, 0)⟩

/-- `Vertex.clone` (a value-identical copy). -/
def Vertex.clone (v : Vertex) : Vertex :=
  mkVertex v.position (some v.normal) (some v.uv)

/-- A supporting plane `{normal, w}`. -/
structure Plane where
  normal : Vec3
  w : ℚ
deriving DecidableEq, Repr

instance : Inhabited Plane := ⟨⟨default, 0⟩⟩

/-- Negation of a plane, as performed inline by `Polygon.flip` and
`BSPNode.invert` (`normal.mul(-1)`, `w = -w`). -/
def Plane.flip (p : Plane) : Plane := ⟨p.normal.mul (-1), -p.w⟩

/-- `Polygon`: vertex ring plus the plane computed at construction. -/
structure Polygon where
  vertices : List Vertex
  plane : Plane
deriving DecidableEq, Repr

instance : Inhabited Polygon := ⟨⟨[], default⟩⟩

/-- `Polygon.calculatePlane`: plane from the first three vertices.  The
source dereferences `vertices[1]` and `vertices[2]` directly, so it is
only defined (does not throw) for rings of length ≥ 3; `mkPolygon?`
captures that, and this total version is used where the source
guarantees the bound. -/
def calculatePlane (vs : List Vertex) : Plane :=
  let p0 := (vs.getD 0 default).position
  let v1 := ((vs.getD 1 default).position).sub p0
  let v2 := ((vs.getD 2 default).position).sub p0
  let normal := (v1.cross v2).normalize
  ⟨normal, normal.dot p0⟩

/-- The `Polygon` constructor. -/
def mkPolygon (vs : List Vertex) : Polygon := ⟨vs, calculatePlane vs⟩

/-- The `Polygon` constructor at `Option` level: `none` models the
`TypeError` thrown by `calculatePlane` when the ring has fewer than 3
vertices. -/
def mkPolygon? (vs : List Vertex) : Option Polygon :=
  if 3 ≤ vs.length then some (mkPolygon vs) else none

/-- `Polygon.flip`: reverse the ring, negate every vertex normal,
negate the plane. -/
def Polygon.flip (p : Polygon) : Polygon :=
  ⟨(p.vertices.reverse).map (fun v => ⟨v.position, v.normal.mul (-1), v.uv⟩),
    p.plane.flip⟩

/-- `Polygon.clone`: clones the vertices and re-runs the constructor,
which recomputes the plane from the vertices. -/
def Polygon.clone (p : Polygon) : Polygon :=
  mkPolygon (p.vertices.map Vertex.clone)

/-- Classification constants. -/
def COPLANAR : ℕ := 0

/-- Classification constant FRONT. -/
def FRONT : ℕ := 1

/-- Classification constant BACK. -/
def BACK : ℕ := 2

/-- Classification constant SPANNING. -/
def SPANNING : ℕ := 3

/-- The fixed classification tolerance `1e-5`. -/
def EPSILON : ℚ := 1 / 100000

/-- Per-vertex classification inside `splitPolygon`:
`t = normal·position − w`; `t < −ε ↦ BACK`, `t > ε ↦ FRONT`,
otherwise `COPLANAR`. -/
def classifyVertex (pl : Plane) (v : Vertex) : ℕ :=
  let t := pl.normal.dot v.position - pl.w
  if t < -EPSILON then BACK else if EPSILON < t then FRONT else COPLANAR

/-- `interpolateVertex`: linear blend of position, normal and uv. -/
def interpolateVertex (v1 v2 : Vertex) (t : ℚ) : Vertex :=
  mkVertex ((v1.position.mul (1 - t)).add (v2.position.mul t))
    (some ((v1.normal.mul (1 - t)).add (v2.normal.mul t)))
    (some (v1.uv.1 * (1 - t) + v2.uv.1 * t, v1.uv.2 * (1 - t) + v2.uv.2 * t))

/-- The four output lists of `splitPolygon` (the source pushes onto four
caller-supplied arrays; the embedding returns the pushed suffixes). -/
structure SplitOut where
  coplanarFront : List Polygon
  coplanarBack : List Polygon
  front : List Polygon
  back : List Polygon
deriving DecidableEq, Repr

/-- One iteration of the SPANNING edge loop of `splitPolygon` at index
`i` (edge from vertex `i` to vertex `(i+1) % n`): the pair of vertex
lists pushed onto `f` and `b` in that iteration. -/
def spanEdge (pl : Plane) (vs : List Vertex) (types : List ℕ) (i : ℕ) :
    List Vertex × List Vertex :=
  let j := (i + 1) % vs.length
  let ti := types.getD i 0
  let tj := types.getD j 0
  let vi := vs.getD i default
  let vj := vs.getD j default
  let inter : List Vertex :=
    if ti.lor tj = SPANNING then
      [interpolateVertex vi vj
        ((pl.w - pl.normal.dot vi.position) /
          (pl.normal.dot (vj.position.sub vi.position)))]
    else []
  ((if ti ≠ BACK then [vi] else []) ++ inter,
   (if ti ≠ FRONT then [if ti ≠ BACK then vi.clone else vi] else []) ++
     inter.map Vertex.clone)

/-- `BSPNode.splitPolygon` against the node plane `pl`. -/
def splitPolygon (pl : Plane) (polygon : Polygon) : SplitOut :=
  let types := polygon.vertices.map (classifyVertex pl)
  let ptype := types.foldl Nat.lor 0
  if ptype = COPLANAR then
    if 0 < pl.normal.dot polygon.plane.normal then ⟨[polygon], [], [], []⟩
    else ⟨[], [polygon], [], []⟩
  else if ptype = FRONT then ⟨[], [], [polygon], []⟩
  else if ptype = BACK then ⟨[], [], [], [polygon]⟩
  else
    let fRing := (List.range polygon.vertices.length).flatMap
      (fun i => (spanEdge pl polygon.vertices types i).1)
    let bRing := (List.range polygon.vertices.length).flatMap
      (fun i => (spanEdge pl polygon.vertices types i).2)
    ⟨[], [],
     if 3 ≤ fRing.length then [mkPolygon fRing] else [],
     if 3 ≤ bRing.length then [mkPolygon bRing] else []⟩

/-- `BSPNode`: optional plane, owned coplanar polygons, optional
front/back children. -/
inductive Node where
  | mk (plane : Option Plane) (polygons : List Polygon)
       (front : Option Node) (back : Option Node)

/-- The node's plane. -/
def Node.plane : Node → Option Plane
  | .mk p _ _ _ => p

/-- The node's owned polygons. -/
def Node.polygons : Node → List Polygon
  | .mk _ ps _ _ => ps

/-- The node's front child. -/
def Node.front : Node → Option Node
  | .mk _ _ f _ => f

/-- The node's back child. -/
def Node.back : Node → Option Node
  | .mk _ _ _ b => b

/-- `new BSPNode()` with no polygons: a plane-less leaf. -/
def emptyNode : Node := .mk none [] none none

/-- `BSPNode.invert`: flip owned polygons, negate the plane, invert the
children, then swap front and back. -/
def Node.invert : Node → Node
  | .mk pl ps fr bk =>
    let ps2 := ps.map Polygon.flip
    let pl2 := pl.map Plane.flip
    let fr2 := match fr with
      | none => none
      | some t => some t.invert
    let bk2 := match bk with
      | none => none
      | some t => some t.invert
    .mk pl2 ps2 bk2 fr2

/-- `BSPNode.clipPolygons`: identity on a plane-less node; otherwise
partition by the node plane, recurse into existing children, and
concatenate front results before back results. -/
def Node.clipPolygons : Node → List Polygon → List Polygon
  | .mk none _ _ _, polys => polys
  | .mk (some pl) _ fr bk, polys =>
    let front := polys.flatMap
      (fun p => (splitPolygon pl p).coplanarFront ++ (splitPolygon pl p).front)
    let back := polys.flatMap
      (fun p => (splitPolygon pl p).coplanarBack ++ (splitPolygon pl p).back)
    let front2 := match fr with
      | none => front
      | some t => t.clipPolygons front
    let back2 := match bk with
      | none => back
      | some t => t.clipPolygons back
    front2 ++ back2

/-- `BSPNode.clipTo`: replace every node's polygon list with its clip
through the other tree. -/
def Node.clipTo : Node → Node → Node
  | .mk pl ps fr bk, bsp =>
    let fr2 := match fr with
      | none => none
      | some t => some (t.clipTo bsp)
    let bk2 := match bk with
      | none => none
      | some t => some (t.clipTo bsp)
    .mk pl (bsp.clipPolygons ps) fr2 bk2

/-- `BSPNode.allPolygons`: own list, then front subtree, then back. -/
def Node.allPolygons : Node → List Polygon
  | .mk _ ps fr bk =>
    ps ++
      (match fr with
        | none => []
        | some t => t.allPolygons) ++
      (match bk with
        | none => []
        | some t => t.allPolygons)

/-- `BSPNode.build`, invoked on an existing node (`this`).  The source
recursion has no structural measure, so an explicit fuel counts the
recursive calls; at fuel 0 the node is returned as-is.  The guard
`!polygons.length || this.polygons.length > 1000` is embedded exactly:
it tests the length of the node's own stored polygon list. -/
def Node.buildOn : ℕ → Node → List Polygon → Node
  | 0, node, _ => node
  | fuel + 1, node, polys =>
    if polys.length = 0 ∨ 1000 < node.polygons.length then node
    else
      let pl := match node.plane with
        | some p => p
        | none => (polys.getD 0 default).plane
      let cop := polys.flatMap
        (fun p => (splitPolygon pl p).coplanarFront ++ (splitPolygon pl p).coplanarBack)
      let front := polys.flatMap (fun p => (splitPolygon pl p).front)
      let back := polys.flatMap (fun p => (splitPolygon pl p).back)
      let fr2 := if front.length = 0 then node.front
        else if front.length ≠ polys.length then
          some (Node.buildOn fuel (node.front.getD emptyNode) front)
        else some (node.front.getD emptyNode)
      let bk2 := if back.length = 0 then node.back
        else if back.length ≠ polys.length then
          some (Node.buildOn fuel (node.back.getD emptyNode) back)
        else some (node.back.getD emptyNode)
      .mk (some pl) (node.polygons ++ cop) fr2 bk2

/-- `new BSPNode(polygons)`. -/
def mkBSPNode (fuel : ℕ) (polys : List Polygon) : Node :=
  Node.buildOn fuel emptyNode polys

/-- The CSG aggregate: a flat polygon list. -/
structure CSG where
  polygons : List Polygon
deriving DecidableEq, Repr

/-- `CSG.clone`. -/
def CSG.clone (c : CSG) : CSG := ⟨c.polygons.map Polygon.clone⟩

/-- `CSG.fromPolygons`. -/
def CSG.fromPolygons (ps : List Polygon) : CSG := ⟨ps⟩

/-- `CSG.union`. -/
def CSG.unionOp (fuel : ℕ) (x y : CSG) : CSG :=
  let a0 := mkBSPNode fuel x.clone.polygons
  let b0 := mkBSPNode fuel y.clone.polygons
  let a1 := a0.clipTo b0
  let b1 := b0.clipTo a1
  let b2 := b1.invert
  let b3 := b2.clipTo a1
  let b4 := b3.invert
  let a2 := Node.buildOn fuel a1 b4.allPolygons
  CSG.fromPolygons a2.allPolygons

/-- `CSG.subtract`. -/
def CSG.subtractOp (fuel : ℕ) (x y : CSG) : CSG :=
  let a0 := mkBSPNode fuel x.clone.polygons
  let b0 := mkBSPNode fuel y.clone.polygons
  let a1 := a0.invert
  let a2 := a1.clipTo b0
  let b1 := b0.clipTo a2
  let b2 := b1.invert
  let b3 := b2.clipTo a2
  let b4 := b3.invert
  let a3 := Node.buildOn fuel a2 b4.allPolygons
  let a4 := a3.invert
  CSG.fromPolygons a4.allPolygons

/-- `CSG.intersect`. -/
def CSG.intersectOp (fuel : ℕ) (x y : CSG) : CSG :=
  let a0 := mkBSPNode fuel x.clone.polygons
  let b0 := mkBSPNode fuel y.clone.polygons
  let a1 := a0.invert
  let b1 := b0.clipTo a1
  let b2 := b1.invert
  let a2 := a1.clipTo b2
  let b3 := b2.clipTo a2
  let a3 := Node.buildOn fuel a2 b3.allPolygons
  let a4 := a3.invert
  CSG.fromPolygons a4.allPolygons

/-- `CSG.inverse`: clone, then flip each polygon. -/
def CSG.inverseOp (c : CSG) : CSG :=
  ⟨c.clone.polygons.map Polygon.flip⟩

/-- A face handed to `fromGeometry`: vertex indices and uv indices. -/
structure Face where
  vertices : List ℕ
  uvs : List ℕ
deriving DecidableEq, Repr

/-- The inner loop of `fromGeometry` for one face: appends the face's
looked-up vertices to the running `faceVertices` accumulator.  A
missing positional vertex (`vertices[vertexIndex]` out of range) makes
the `Vertex` constructor throw, modelled by `none`; missing normals or
uvs silently default. -/
def fromGeometryFace? (verts : List Vec3) (normals : Option (List Vec3))
    (uvTable : Option (List (ℚ × ℚ))) (face : Face) (acc : List Vertex) :
    Option (List Vertex) :=
  (List.range face.vertices.length).foldlM
    (fun acc2 i => do
      let idx := face.vertices.getD i 0
      let pos ← verts.get? idx
      let n : Option Vec3 := normals.bind (fun table => table.get? idx)
      let uv : Option (ℚ × ℚ) :=
        uvTable.bind (fun table => (face.uvs.get? i).bind (fun k => table.get? k))
      pure (acc2 ++ [mkVertex pos n uv]))
    acc

/-- `CSG.fromGeometry`.  Faithful to the source: the `faceVertices`
array is declared outside the face loop, is never reset, and is passed
to every `Polygon` constructor, so every returned polygon shares the
same ring — the final accumulated vertex list over all faces.  Each
polygon's plane is computed at construction time from the accumulator's
then-current contents (its first three entries, which never change
afterwards); a construction on fewer than 3 accumulated vertices throws
(`none`). -/
def fromGeometry? (verts : List Vec3) (faces : List Face)
    (normals : Option (List Vec3)) (uvTable : Option (List (ℚ × ℚ))) :
    Option CSG := do
  let st ← faces.foldlM
    (fun (st : List Vertex × List Plane) face => do
      let acc ← fromGeometryFace? verts normals uvTable face st.1
      if 3 ≤ acc.length then pure (acc, st.2 ++ [calculatePlane acc]) else none)
    (([], []) : List Vertex × List Plane)
  pure ⟨st.2.map (fun pl => ⟨st.1, pl⟩)⟩

/-! ### Specification-mirror definitions

The following definitions are written from the specification / claim
wording (not from the source); the refinement theorems below compare
them with the source-derived definitions above. -/

/-- Spec wording of per-vertex classification: the signed value
`normal·position − w` with epsilon `1e-5`; within the band it is
COPLANAR, below it BACK, above it FRONT. -/
def classifyVertexSpec (pl : Plane) (v : Vertex) : ℕ :=
  let s := pl.normal.dot v.position - pl.w
  if -EPSILON ≤ s ∧ s ≤ EPSILON then COPLANAR else if s < 0 then BACK else FRONT

/-- Spec wording of one edge's contribution to the spanning rings:
keep the edge's source vertex on each side it does not strictly oppose,
and synthesize an interpolated boundary vertex at
`t = (w − normal·vᵢ) / (normal·(vⱼ − vᵢ))` for each side-crossing edge
(one endpoint FRONT, the other BACK). -/
def spanEdgeSpec (pl : Plane) (e : (Vertex × ℕ) × (Vertex × ℕ)) :
    List Vertex × List Vertex :=
  let vi := e.1.1
  let ti := e.1.2
  let vj := e.2.1
  let tj := e.2.2
  let inter : List Vertex :=
    if (ti = FRONT ∧ tj = BACK) ∨ (ti = BACK ∧ tj = FRONT) then
      [interpolateVertex vi vj
        ((pl.w - pl.normal.dot vi.position) /
          (pl.normal.dot (vj.position.sub vi.position)))]
    else []
  ((if ti = BACK then [] else [vi]) ++ inter,
   (if ti = FRONT then [] else [vi]) ++ inter)

/-- Spec wording of `splitPolygon` (claim C1): classify every vertex,
OR the types; an all-COPLANAR polygon routes whole by the sign of the
dot product of its own plane normal with the reference normal; a
polygon with no BACK (resp. no FRONT) vertex routes whole and unsplit
to the front (resp. back) list; otherwise the polygon is split
edge-by-edge over the cyclically adjacent vertex pairs, and each
accumulated ring is emitted only if it retains at least 3 vertices. -/
def splitPolygonSpec (pl : Plane) (p : Polygon) : SplitOut :=
  let types := p.vertices.map (classifyVertexSpec pl)
  if ∀ t ∈ types, t = COPLANAR then
    if 0 < pl.normal.dot p.plane.normal then ⟨[p], [], [], []⟩
    else ⟨[], [p], [], []⟩
  else if ∀ t ∈ types, t ≠ BACK then ⟨[], [], [p], []⟩
  else if ∀ t ∈ types, t ≠ FRONT then ⟨[], [], [], [p]⟩
  else
    let tv := p.vertices.zip types
    let edges := tv.zip (tv.rotate 1)
    let fRing := edges.flatMap (fun e => (spanEdgeSpec pl e).1)
    let bRing := edges.flatMap (fun e => (spanEdgeSpec pl e).2)
    ⟨[], [],
     if 3 ≤ fRing.length then [mkPolygon fRing] else [],
     if 3 ≤ bRing.length then [mkPolygon bRing] else []⟩

/-- Clipping through an optional child: absent children pass the list
through unchanged. -/
def clipThrough : Option Node → List Polygon → List Polygon
  | none, l => l
  | some t, l => t.clipPolygons l

/-- The operation sequence claimed for `intersect` by the spec (claim
C3): invert both `a` and `b`; clip `b` to `a`; clip `a` to `b`; invert
`b`; clip `b` to `a`; invert `b` back; merge `b` into `a`; invert `a`
back; return the flattened result. -/
def CSG.intersectClaimedSeq (fuel : ℕ) (x y : CSG) : CSG :=
  let a0 := mkBSPNode fuel x.clone.polygons
  let b0 := mkBSPNode fuel y.clone.polygons
  let a1 := a0.invert
  let b1 := b0.invert
  let b2 := b1.clipTo a1
  let a2 := a1.clipTo b2
  let b3 := b2.invert
  let b4 := b3.clipTo a2
  let b5 := b4.invert
  let a3 := Node.buildOn fuel a2 b5.allPolygons
  let a4 := a3.invert
  CSG.fromPolygons a4.allPolygons

/-! ### Observation functions and concrete data used by the theorems -/

/-- Number of nodes of a partition tree. -/
def countNodes : Node → ℕ
  | .mk _ _ fr bk =>
    1 + (match fr with
          | none => 0
          | some t => countNodes t)
      + (match bk with
          | none => 0
          | some t => countNodes t)

/-- A position-only vertex, as produced by `fromGeometry` without
normal and uv tables. -/
def cexVertex (a b c : ℚ) : Vertex := mkVertex ⟨a, b, c⟩ none none

/-- A triangle in the plane `z = 0`. -/
def cexT1 : Polygon := mkPolygon [cexVertex 0 0 0, cexVertex 1 0 0, cexVertex 0 1 0]

/-- A triangle in the plane `y = 0` crossing the plane `z = 0`. -/
def cexT2 : Polygon :=
  mkPolygon [cexVertex 0 0 (-1), cexVertex 2 0 (-1), cexVertex 0 0 1]

/-- A two-triangle CSG whose polygons span each other's planes. -/
def cexA : CSG := ⟨[cexT1, cexT2]⟩

/-- The empty CSG. -/
def cexEmpty : CSG := ⟨[]⟩

/-- A planar, simple quadrilateral whose last three vertices are
collinear, so the plane recomputed from its reversed ring is
degenerate. -/
def cexQuad : Polygon :=
  mkPolygon [cexVertex 0 0 0, cexVertex 1 0 0, cexVertex 1 1 0, cexVertex 1 2 0]

/-- A collinear (zero-area) vertex ring of length 3. -/
def cexCollinear : List Vertex := [cexVertex 0 0 0, cexVertex 1 0 0, cexVertex 2 0 0]

/-- Vertex table for the `fromGeometry` inputs. -/
def cexGVerts : List Vec3 := [⟨0, 0, 0⟩, ⟨1, 0, 0⟩, ⟨0, 1, 0⟩, ⟨1, 1, 0⟩]

/-- Two triangular faces over `cexGVerts`. -/
def cexFaces : List Face := [⟨[0, 1, 2], []⟩, ⟨[1, 3, 2], []⟩]

/-- A single degenerate face with only two vertex indices. -/
def cexBadFaces : List Face := [⟨[0, 1], []⟩]

/-- The triangle `[(0,0,c), (1,0,c), (0,1,c)]` in the plane `z = c`. -/
def chainTri (c : ℚ) : Polygon :=
  mkPolygon [mkVertex ⟨0, 0, c⟩ none none, mkVertex ⟨1, 0, c⟩ none none,
    mkVertex ⟨0, 1, c⟩ none none]

/-- `k` triangles on the parallel planes `z = c, c+1, …, c+k−1`. -/
def chainPolys : ℚ → ℕ → List Polygon
  | _, 0 => []
  | c, k + 1 => chainTri c :: chainPolys (c + 1) k

/-- The operation sequence `CSG.intersect` actually performs (the
amended claim C3): invert `a`; clip `b` to `a`; invert `b`; clip `a` to
`b`; clip `b` to `a`; merge `b` into `a` via a fresh build; invert `a`
back; return the flattened result. -/
def CSG.intersectAmendedSeq (fuel : ℕ) (x y : CSG) : CSG :=
  let a0 := mkBSPNode fuel x.clone.polygons
  let b0 := mkBSPNode fuel y.clone.polygons
  let a1 := a0.invert
  let b1 := b0.clipTo a1
  let b2 := b1.invert
  let a2 := a1.clipTo b2
  let b3 := b2.clipTo a2
  let a3 := Node.buildOn fuel a2 b3.allPolygons
  let a4 := a3.invert
  CSG.fromPolygons a4.allPolygons

/-- The CSG returned by `fromGeometry` on the two-triangle input. -/
def c2csg : CSG := (fromGeometry? cexGVerts cexFaces none none).getD ⟨[]⟩

/-- A node whose own polygon list already holds 1001 polygons. -/
def c5node : Node := .mk none (List.replicate 1001 default) none none

/-! ### Store-passing embedding

The source mutates `Vec3` objects (vertex normals and plane normals,
via `mul(-1)`) and plane objects (`plane.w = -plane.w`) in place, and
`BSPNode.build` stores `polygons[0].plane` on the node *without
cloning it*, so a node's plane object is shared with its first stored
polygon's plane object.  The value-level embedding above cannot see
that sharing; the definitions in this namespace embed the same source
functions with an explicit store: `Vec3` cells and plane cells live in
a store and the structures hold references.  Positions and uv pairs
are never mutated anywhere in the source and are kept as values. -/

namespace Heap

/-- A plane object: a reference to its normal `Vec3` cell, plus `w`. -/
structure HPlane where
  normal : ℕ
  w : ℚ
deriving DecidableEq, Repr

instance : Inhabited HPlane := ⟨⟨0, 0⟩⟩

/-- The store: `Vec3` cells and plane cells. -/
structure St where
  vecs : List Vec3
  planes : List HPlane
deriving DecidableEq, Repr

/-- Allocate a fresh `Vec3` cell. -/
def allocVec (σ : St) (v : Vec3) : ℕ × St :=
  (σ.vecs.length, ⟨σ.vecs ++ [v], σ.planes⟩)

/-- Read a `Vec3` cell. -/
def readVec (σ : St) (r : ℕ) : Vec3 := σ.vecs.getD r default

/-- Overwrite a `Vec3` cell. -/
def writeVec (σ : St) (r : ℕ) (v : Vec3) : St := ⟨σ.vecs.set r v, σ.planes⟩

/-- Allocate a fresh plane cell. -/
def allocPlane (σ : St) (p : HPlane) : ℕ × St :=
  (σ.planes.length, ⟨σ.vecs, σ.planes ++ [p]⟩)

/-- Read a plane cell. -/
def readPlane (σ : St) (r : ℕ) : HPlane := σ.planes.getD r default

/-- Overwrite a plane cell. -/
def writePlane (σ : St) (r : ℕ) (p : HPlane) : St := ⟨σ.vecs, σ.planes.set r p⟩

/-- A vertex: the position and uv are immutable values, the normal is a
mutable `Vec3` cell. -/
structure HVertex where
  position : Vec3
  normal : ℕ
  uv : ℚ × ℚ
deriving DecidableEq, Repr

instance : Inhabited HVertex := ⟨⟨default, 0, (0, 0)⟩⟩

/-- The `Vertex` constructor: clones the supplied normal object into a
fresh cell (or allocates a zero vector when absent). -/
def newVertex (σ : St) (pos : Vec3) (normal : Option ℕ) (uv : Option (ℚ × ℚ)) :
    HVertex × St :=
  let nv : Vec3 := match normal with
    | some r => readVec σ r
    | none => ⟨0, 0, 0⟩
  let a := allocVec σ nv
  (⟨pos, a.1, uv.getD (0, 0)⟩, a.2)

/-- `Vertex.clone`. -/
def cloneVertex (σ : St) (v : HVertex) : HVertex × St :=
  newVertex σ v.position (some v.normal) (some v.uv)

/-- A polygon: its vertices, and a reference to its plane cell. -/
structure HPolygon where
  vertices : List HVertex
  plane : ℕ
deriving DecidableEq, Repr

instance : Inhabited HPolygon := ⟨⟨[], 0⟩⟩

/-- `Polygon.calculatePlane`: the normal is a freshly allocated `Vec3`
object, the plane a freshly allocated plane object. -/
def hCalculatePlane (σ : St) (vs : List HVertex) : ℕ × St :=
  let p0 := (vs.getD 0 default).position
  let v1 := ((vs.getD 1 default).position).sub p0
  let v2 := ((vs.getD 2 default).position).sub p0
  let normal := (v1.cross v2).normalize
  let a := allocVec σ normal
  allocPlane a.2 ⟨a.1, normal.dot p0⟩

/-- The `Polygon` constructor. -/
def hMkPolygon (σ : St) (vs : List HVertex) : HPolygon × St :=
  let a := hCalculatePlane σ vs
  (⟨vs, a.1⟩, a.2)

/-- Clone a vertex list in order. -/
def cloneVertices (σ : St) (vs : List HVertex) : List HVertex × St :=
  vs.foldl
    (fun acc v =>
      let a := cloneVertex acc.2 v
      (acc.1 ++ [a.1], a.2))
    ([], σ)

/-- `Polygon.clone`: clone the vertices, re-run the constructor. -/
def hClonePolygon (σ : St) (p : HPolygon) : HPolygon × St :=
  let a := cloneVertices σ p.vertices
  hMkPolygon a.2 a.1

/-- `Polygon.flip`: reverse the ring, negate every vertex normal cell,
negate the shared plane object (its normal cell and its `w`). -/
def hFlipPolygon (σ : St) (p : HPolygon) : HPolygon × St :=
  let σ1 := p.vertices.foldl
    (fun σ0 v => writeVec σ0 v.normal ((readVec σ0 v.normal).mul (-1))) σ
  let pc := readPlane σ1 p.plane
  let σ2 := writeVec σ1 pc.normal ((readVec σ1 pc.normal).mul (-1))
  let σ3 := writePlane σ2 p.plane ⟨pc.normal, -pc.w⟩
  (⟨p.vertices.reverse, p.plane⟩, σ3)

/-- `interpolateVertex`: blends are fresh objects; the `Vertex`
constructor clones the blended normal again. -/
def hInterpolateVertex (σ : St) (v1 v2 : HVertex) (t : ℚ) : HVertex × St :=
  let n1 := readVec σ v1.normal
  let n2 := readVec σ v2.normal
  let a := allocVec σ ((n1.mul (1 - t)).add (n2.mul t))
  newVertex a.2 ((v1.position.mul (1 - t)).add (v2.position.mul t)) (some a.1)
    (some (v1.uv.1 * (1 - t) + v2.uv.1 * t, v1.uv.2 * (1 - t) + v2.uv.2 * t))

/-- The four output lists of `splitPolygon`. -/
structure HSplitOut where
  coplanarFront : List HPolygon
  coplanarBack : List HPolygon
  front : List HPolygon
  back : List HPolygon
deriving DecidableEq, Repr

/-- One iteration of the SPANNING edge loop of `splitPolygon`: clones
and interpolated vertices allocate, in source order. -/
def hSpanStep (pc : HPlane) (n : Vec3) (vs : List HVertex) (types : List ℕ)
    (acc : List HVertex × List HVertex × St) (i : ℕ) :
    List HVertex × List HVertex × St :=
  let σ0 := acc.2.2
  let j := (i + 1) % vs.length
  let ti := types.getD i 0
  let tj := types.getD j 0
  let vi := vs.getD i default
  let vj := vs.getD j default
  let keepF : List HVertex := if ti ≠ BACK then [vi] else []
  let bk := if ti ≠ FRONT then
      (if ti ≠ BACK then
        (let c := cloneVertex σ0 vi
         ([c.1], c.2))
      else ([vi], σ0))
    else ([], σ0)
  let sp := if ti.lor tj = SPANNING then
      (let t := (pc.w - n.dot vi.position) / (n.dot (vj.position.sub vi.position))
       let v := hInterpolateVertex bk.2 vi vj t
       let vc := cloneVertex v.2 v.1
       ([v.1], [vc.1], vc.2))
    else ([], [], bk.2)
  (acc.1 ++ keepF ++ sp.1, acc.2.1 ++ bk.1 ++ sp.2.1, sp.2.2)

/-- `BSPNode.splitPolygon` against the plane cell `pr`. -/
def hSplitPolygon (σ : St) (pr : ℕ) (polygon : HPolygon) : HSplitOut × St :=
  let pc := readPlane σ pr
  let n := readVec σ pc.normal
  let types := polygon.vertices.map (fun v =>
    let t := n.dot v.position - pc.w
    if t < -EPSILON then BACK else if EPSILON < t then FRONT else COPLANAR)
  let ptype := types.foldl Nat.lor 0
  if ptype = COPLANAR then
    let own := readPlane σ polygon.plane
    if 0 < n.dot (readVec σ own.normal) then (⟨[polygon], [], [], []⟩, σ)
    else (⟨[], [polygon], [], []⟩, σ)
  else if ptype = FRONT then (⟨[], [], [polygon], []⟩, σ)
  else if ptype = BACK then (⟨[], [], [], [polygon]⟩, σ)
  else
    let res := (List.range polygon.vertices.length).foldl
      (hSpanStep pc n polygon.vertices types) ([], [], σ)
    let fRing := res.1
    let bRing := res.2.1
    let σ1 := res.2.2
    let fo := if 3 ≤ fRing.length then
        (let a := hMkPolygon σ1 fRing
         ([a.1], a.2))
      else ([], σ1)
    let bo := if 3 ≤ bRing.length then
        (let a := hMkPolygon fo.2 bRing
         ([a.1], a.2))
      else ([], fo.2)
    (⟨[], [], fo.1, bo.1⟩, bo.2)

/-- `BSPNode` with store references in planes and polygons. -/
inductive HNode where
  | mk (plane : Option ℕ) (polygons : List HPolygon)
       (front : Option HNode) (back : Option HNode)

/-- The node's plane reference. -/
def HNode.plane : HNode → Option ℕ
  | .mk p _ _ _ => p

/-- The node's polygons. -/
def HNode.polygons : HNode → List HPolygon
  | .mk _ ps _ _ => ps

/-- The node's front child. -/
def HNode.front : HNode → Option HNode
  | .mk _ _ f _ => f

/-- The node's back child. -/
def HNode.back : HNode → Option HNode
  | .mk _ _ _ b => b

/-- `new BSPNode()`. -/
def emptyHNode : HNode := .mk none [] none none

/-- One `splitPolygon` pass over a polygon list, accumulating the four
output lists in iteration order. -/
def hSplitStep (pr : ℕ)
    (acc : (List HPolygon × List HPolygon × List HPolygon × List HPolygon) × St)
    (p : HPolygon) :
    (List HPolygon × List HPolygon × List HPolygon × List HPolygon) × St :=
  let a := hSplitPolygon acc.2 pr p
  ((acc.1.1 ++ a.1.coplanarFront, acc.1.2.1 ++ a.1.coplanarBack,
    acc.1.2.2.1 ++ a.1.front, acc.1.2.2.2 ++ a.1.back), a.2)

/-- One `splitPolygon` pass over a polygon list, accumulating the four
output lists in iteration order. -/
def hSplitAll (σ : St) (pr : ℕ) (polys : List HPolygon) :
    (List HPolygon × List HPolygon × List HPolygon × List HPolygon) × St :=
  polys.foldl (hSplitStep pr)
    ((([], [], [], []) :
      List HPolygon × List HPolygon × List HPolygon × List HPolygon), σ)

/-- `BSPNode.build` on an existing node; the adopted plane is
`polygons[0].plane` itself — the same plane object, not a clone. -/
def hBuild : ℕ → HNode → List HPolygon → St → HNode × St
  | 0, node, _, σ => (node, σ)
  | fuel + 1, node, polys, σ =>
    if polys.length = 0 ∨ 1000 < node.polygons.length then (node, σ)
    else
      let pr : ℕ := match node.plane with
        | some r => r
        | none => (polys.getD 0 default).plane
      let a := hSplitAll σ pr polys
      let cop := a.1.1 ++ a.1.2.1
      let front := a.1.2.2.1
      let back := a.1.2.2.2
      let fr := if front.length = 0 then (node.front, a.2)
        else if front.length ≠ polys.length then
          (let b := hBuild fuel (node.front.getD emptyHNode) front a.2
           (some b.1, b.2))
        else (some (node.front.getD emptyHNode), a.2)
      let bk := if back.length = 0 then (node.back, fr.2)
        else if back.length ≠ polys.length then
          (let b := hBuild fuel (node.back.getD emptyHNode) back fr.2
           (some b.1, b.2))
        else (some (node.back.getD emptyHNode), fr.2)
      (.mk (some pr) (node.polygons ++ cop) fr.1 bk.1, bk.2)

/-- The polygon flip pass shared by `BSPNode.invert` and `CSG.inverse`
(`forEach(p => p.flip())`). -/
def hFlipAll (σ : St) (ps : List HPolygon) : List HPolygon × St :=
  ps.foldl
    (fun (acc : List HPolygon × St) p =>
      let b := hFlipPolygon acc.2 p
      (acc.1 ++ [b.1], b.2))
    ([], σ)

/-- `BSPNode.invert`: flip every owned polygon, negate the node's
plane object, invert the children, swap front and back. -/
def hInvert : HNode → St → HNode × St
  | .mk pl ps fr bk, σ =>
    let a := hFlipAll σ ps
    let σ1 := match pl with
      | none => a.2
      | some r =>
        let pc := readPlane a.2 r
        let σp := writeVec a.2 pc.normal ((readVec a.2 pc.normal).mul (-1))
        writePlane σp r ⟨pc.normal, -pc.w⟩
    let fr2 := match fr with
      | none => (none, σ1)
      | some t =>
        let b := hInvert t σ1
        (some b.1, b.2)
    let bk2 := match bk with
      | none => (none, fr2.2)
      | some t =>
        let b := hInvert t fr2.2
        (some b.1, b.2)
    (.mk pl a.1 bk2.1 fr2.1, bk2.2)

/-- `BSPNode.clipPolygons`. -/
def hClipPolygons : HNode → List HPolygon → St → List HPolygon × St
  | .mk none _ _ _, polys, σ => (polys, σ)
  | .mk (some pr) _ fr bk, polys, σ =>
    let a := hSplitAll σ pr polys
    let front := a.1.1 ++ a.1.2.2.1
    let back := a.1.2.1 ++ a.1.2.2.2
    let f2 := match fr with
      | none => (front, a.2)
      | some t => hClipPolygons t front a.2
    let b2 := match bk with
      | none => (back, f2.2)
      | some t => hClipPolygons t back f2.2
    (f2.1 ++ b2.1, b2.2)

/-- `BSPNode.clipTo`. -/
def hClipTo : HNode → HNode → St → HNode × St
  | .mk pl ps fr bk, bsp, σ =>
    let a := hClipPolygons bsp ps σ
    let fr2 := match fr with
      | none => (none, a.2)
      | some t =>
        let b := hClipTo t bsp a.2
        (some b.1, b.2)
    let bk2 := match bk with
      | none => (none, fr2.2)
      | some t =>
        let b := hClipTo t bsp fr2.2
        (some b.1, b.2)
    (.mk pl a.1 fr2.1 bk2.1, bk2.2)

/-- `BSPNode.allPolygons` (reads no cells). -/
def hAllPolygons : HNode → List HPolygon
  | .mk _ ps fr bk =>
    ps ++
      (match fr with
        | none => []
        | some t => hAllPolygons t) ++
      (match bk with
        | none => []
        | some t => hAllPolygons t)

/-- `CSG.clone` on a polygon list. -/
def hCloneCSG (σ : St) (ps : List HPolygon) : List HPolygon × St :=
  ps.foldl
    (fun acc p =>
      let a := hClonePolygon acc.2 p
      (acc.1 ++ [a.1], a.2))
    ([], σ)

/-- `CSG.union`. -/
def hUnion (fuel : ℕ) (σ : St) (x y : List HPolygon) : List HPolygon × St :=
  let cx := hCloneCSG σ x
  let a0 := hBuild fuel emptyHNode cx.1 cx.2
  let cy := hCloneCSG a0.2 y
  let b0 := hBuild fuel emptyHNode cy.1 cy.2
  let a1 := hClipTo a0.1 b0.1 b0.2
  let b1 := hClipTo b0.1 a1.1 a1.2
  let b2 := hInvert b1.1 b1.2
  let b3 := hClipTo b2.1 a1.1 b2.2
  let b4 := hInvert b3.1 b3.2
  let a2 := hBuild fuel a1.1 (hAllPolygons b4.1) b4.2
  (hAllPolygons a2.1, a2.2)

/-- `CSG.subtract`. -/
def hSubtract (fuel : ℕ) (σ : St) (x y : List HPolygon) : List HPolygon × St :=
  let cx := hCloneCSG σ x
  let a0 := hBuild fuel emptyHNode cx.1 cx.2
  let cy := hCloneCSG a0.2 y
  let b0 := hBuild fuel emptyHNode cy.1 cy.2
  let a1 := hInvert a0.1 b0.2
  let a2 := hClipTo a1.1 b0.1 a1.2
  let b1 := hClipTo b0.1 a2.1 a2.2
  let b2 := hInvert b1.1 b1.2
  let b3 := hClipTo b2.1 a2.1 b2.2
  let b4 := hInvert b3.1 b3.2
  let a3 := hBuild fuel a2.1 (hAllPolygons b4.1) b4.2
  let a4 := hInvert a3.1 a3.2
  (hAllPolygons a4.1, a4.2)

/-- `CSG.intersect`. -/
def hIntersect (fuel : ℕ) (σ : St) (x y : List HPolygon) : List HPolygon × St :=
  let cx := hCloneCSG σ x
  let a0 := hBuild fuel emptyHNode cx.1 cx.2
  let cy := hCloneCSG a0.2 y
  let b0 := hBuild fuel emptyHNode cy.1 cy.2
  let a1 := hInvert a0.1 b0.2
  let b1 := hClipTo b0.1 a1.1 a1.2
  let b2 := hInvert b1.1 b1.2
  let a2 := hClipTo a1.1 b2.1 b2.2
  let b3 := hClipTo b2.1 a2.1 a2.2
  let a3 := hBuild fuel a2.1 (hAllPolygons b3.1) b3.2
  let a4 := hInvert a3.1 a3.2
  (hAllPolygons a4.1, a4.2)

/-- `CSG.inverse`: clone, then flip each polygon in place. -/
def hInverse (σ : St) (x : List HPolygon) : List HPolygon × St :=
  let c := hCloneCSG σ x
  hFlipAll c.2 c.1

/-- Read back a vertex as a value. -/
def derefVertex (σ : St) (v : HVertex) : Vertex :=
  ⟨v.position, readVec σ v.normal, v.uv⟩

/-- Read back a plane cell as a value. -/
def derefPlane (σ : St) (r : ℕ) : Plane :=
  ⟨readVec σ (readPlane σ r).normal, (readPlane σ r).w⟩

/-- Read back a polygon as a value. -/
def derefPolygon (σ : St) (p : HPolygon) : Polygon :=
  ⟨p.vertices.map (derefVertex σ), derefPlane σ p.plane⟩

/-- Read back a polygon list as values. -/
def derefCSG (σ : St) (ps : List HPolygon) : List Polygon :=
  ps.map (derefPolygon σ)

/-- All references of a vertex lie in `[nv, |vecs|)`. -/
def vertexIn (nv : ℕ) (σ : St) (v : HVertex) : Prop :=
  nv ≤ v.normal ∧ v.normal < σ.vecs.length

/-- All references of a polygon lie in the given windows. -/
def polyIn (nv np : ℕ) (σ : St) (p : HPolygon) : Prop :=
  np ≤ p.plane ∧ p.plane < σ.planes.length ∧ ∀ v ∈ p.vertices, vertexIn nv σ v

/-- All references of a polygon list lie in the given windows. -/
def polysIn (nv np : ℕ) (σ : St) (ps : List HPolygon) : Prop :=
  ∀ p ∈ ps, polyIn nv np σ p

/-- All references of a tree lie in the given windows. -/
def nodeIn (nv np : ℕ) (σ : St) : HNode → Prop
  | .mk pl ps fr bk =>
    (∀ r ∈ pl, np ≤ r ∧ r < σ.planes.length) ∧ polysIn nv np σ ps ∧
      (∀ t ∈ fr, nodeIn nv np σ t) ∧ (∀ t ∈ bk, nodeIn nv np σ t)

/-- Plane cells in the window `[np, …)` only reference `Vec3` cells in
the window `[nv, …)`; maintained by every operation because fresh plane
cells always point at fresh normal cells and plane writes preserve the
normal reference. -/
def storeGE (nv np : ℕ) (σ : St) : Prop :=
  ∀ i, np ≤ i → i < σ.planes.length → nv ≤ (readPlane σ i).normal

/-- Store extension: lengths grow and all cells below the marks keep
their contents. -/
structure Ext (nv np : ℕ) (σ σ2 : St) : Prop where
  vlen : σ.vecs.length ≤ σ2.vecs.length
  plen : σ.planes.length ≤ σ2.planes.length
  vpres : ∀ i, i < nv → σ2.vecs.getD i default = σ.vecs.getD i default
  ppres : ∀ i, i < np → σ2.planes.getD i default = σ.planes.getD i default

/-- Every reference of a polygon lies strictly below the marks, so the
polygon reads only cells that `Ext` preserves. -/
def polyBelow (nv np : ℕ) (σ : St) (p : HPolygon) : Prop :=
  p.plane < np ∧ (readPlane σ p.plane).normal < nv ∧ ∀ v ∈ p.vertices, v.normal < nv

/-- All polygons of a list read only cells below the marks. -/
def csgBelow (nv np : ℕ) (σ : St) (ps : List HPolygon) : Prop :=
  ∀ p ∈ ps, polyBelow nv np σ p

instance (nv np : ℕ) (σ : St) (p : HPolygon) : Decidable (polyBelow nv np σ p) := by
  unfold polyBelow
  infer_instance

instance (nv np : ℕ) (σ : St) (ps : List HPolygon) : Decidable (csgBelow nv np σ ps) := by
  unfold csgBelow
  infer_instance

/-- A store with three vertex-normal cells (0–2), one plane-normal cell
(3) and one plane cell (0, the plane `z = 0`). -/
def wSt0 : St := ⟨[⟨0, 0, 1⟩, ⟨0, 0, 1⟩, ⟨0, 0, 1⟩, ⟨0, 0, 1⟩], [⟨3, 0⟩]⟩

/-- A triangle in the plane `z = 0` over `wSt0`: vertex-normal cells
0–2, plane cell 0. -/
def wT : HPolygon :=
  ⟨[⟨⟨0, 0, 0⟩, 0, (0, 0)⟩, ⟨⟨1, 0, 0⟩, 1, (0, 0)⟩, ⟨⟨0, 1, 0⟩, 2, (0, 0)⟩], 0⟩

/-- A store holding two triangles' cells: vertex-normal cells 0–5,
plane-normal cells 6–7, plane cells 0–1. -/
def w4St : St :=
  ⟨[⟨0, 0, 1⟩, ⟨0, 0, 1⟩, ⟨0, 0, 1⟩, ⟨0, 1, 0⟩, ⟨0, 1, 0⟩, ⟨0, 1, 0⟩, ⟨0, 0, 1⟩, ⟨0, 1, 0⟩],
    [⟨6, 0⟩, ⟨7, 0⟩]⟩

/-- A triangle in the plane `z = 0` over `w4St`. -/
def w4X : List HPolygon :=
  [⟨[⟨⟨0, 0, 0⟩, 0, (0, 0)⟩, ⟨⟨1, 0, 0⟩, 1, (0, 0)⟩, ⟨⟨0, 1, 0⟩, 2, (0, 0)⟩], 0⟩]

/-- A triangle in the plane `y = 0` over `w4St`, spanning `z = 0`. -/
def w4Y : List HPolygon :=
  [⟨[⟨⟨0, 0, -1⟩, 3, (0, 0)⟩, ⟨⟨2, 0, -1⟩, 4, (0, 0)⟩, ⟨⟨0, 0, 1⟩, 5, (0, 0)⟩], 1⟩]

end Heap

/-! ### Helper lemmas -/

theorem Vertex.clone_id (v : Vertex) : v.clone = v := by
  cases v
  rfl

theorem Vec3.mul_neg_neg (v : Vec3) : (v.mul (-1)).mul (-1) = v := by
  cases v
  simp [Vec3.mul]

theorem Plane.flip_twice (p : Plane) : p.flip.flip = p := by
  cases p
  simp [Plane.flip, Vec3.mul_neg_neg]

/-- The in-place vertex-normal negation performed by `Polygon.flip`. -/
def negNormal (v : Vertex) : Vertex := ⟨v.position, v.normal.mul (-1), v.uv⟩

theorem negNormal_negNormal (v : Vertex) : negNormal (negNormal v) = v := by
  cases v
  simp [negNormal, Vec3.mul_neg_neg]

theorem Polygon.flip_def (p : Polygon) :
    p.flip = ⟨(p.vertices.reverse).map negNormal, p.plane.flip⟩ := rfl

theorem Polygon.flip_flip (p : Polygon) : p.flip.flip = p := by
  cases p with
  | mk vs pl =>
    simp [Polygon.flip_def, Plane.flip_twice, List.map_reverse, List.reverse_reverse,
      List.map_map, Function.comp_def, negNormal_negNormal]

theorem Node.invert_invert : ∀ t : Node, t.invert.invert = t
  | .mk pl ps fr bk => by
    have hps : (ps.map Polygon.flip).map Polygon.flip = ps := by
      simp [List.map_map, Function.comp_def, Polygon.flip_flip]
    have hpl : (pl.map Plane.flip).map Plane.flip = pl := by
      cases pl <;> simp [Plane.flip_twice]
    cases fr with
    | none =>
      cases bk with
      | none => simp [Node.invert, hps, hpl]
      | some tb => simp [Node.invert, hps, hpl, Node.invert_invert tb]
    | some tf =>
      cases bk with
      | none => simp [Node.invert, hps, hpl, Node.invert_invert tf]
      | some tb =>
        simp [Node.invert, hps, hpl, Node.invert_invert tf, Node.invert_invert tb]

theorem Node.clip_nil : ∀ t : Node, t.clipPolygons [] = []
  | .mk none ps fr bk => rfl
  | .mk (some pl) ps fr bk => by
    cases fr with
    | none =>
      cases bk with
      | none => simp [Node.clipPolygons]
      | some tb => simp [Node.clipPolygons, Node.clip_nil tb]
    | some tf =>
      cases bk with
      | none => simp [Node.clipPolygons, Node.clip_nil tf]
      | some tb => simp [Node.clipPolygons, Node.clip_nil tf, Node.clip_nil tb]

theorem emptyNode_clipPolygons (ps : List Polygon) :
    emptyNode.clipPolygons ps = ps := rfl

theorem Node.clipTo_leaf : ∀ t : Node, t.clipTo emptyNode = t
  | .mk pl ps fr bk => by
    cases fr with
    | none =>
      cases bk with
      | none => simp [Node.clipTo, emptyNode_clipPolygons]
      | some tb => simp [Node.clipTo, emptyNode_clipPolygons, Node.clipTo_leaf tb]
    | some tf =>
      cases bk with
      | none => simp [Node.clipTo, emptyNode_clipPolygons, Node.clipTo_leaf tf]
      | some tb =>
        simp [Node.clipTo, emptyNode_clipPolygons, Node.clipTo_leaf tf,
          Node.clipTo_leaf tb]

theorem emptyNode_clipTo (x : Node) : emptyNode.clipTo x = emptyNode := by
  simp [Node.clipTo, emptyNode, Node.clip_nil]

theorem Node.build_nil (fuel : ℕ) (node : Node) : Node.buildOn fuel node [] = node := by
  cases fuel with
  | zero => rfl
  | succ n => simp [Node.buildOn]

theorem emptyNode_invert : emptyNode.invert = emptyNode := rfl

theorem emptyNode_allPolygons : emptyNode.allPolygons = [] := rfl

theorem intersect_empty_eq (fuel : ℕ) (A : CSG) :
    CSG.intersectOp fuel A ⟨[]⟩ =
      CSG.fromPolygons (Node.allPolygons (mkBSPNode fuel A.clone.polygons)) := by
  simp [CSG.intersectOp, CSG.clone, mkBSPNode, Node.build_nil, emptyNode_clipTo,
    emptyNode_invert, Node.clipTo_leaf, Node.invert_invert, emptyNode_allPolygons]

theorem Vec3.dot_cross_right (u v : Vec3) : (u.cross v).dot v = 0 := by
  cases u
  cases v
  simp only [Vec3.cross, Vec3.dot]
  ring

theorem Vec3.neg_dot (u v : Vec3) : (u.mul (-1)).dot v = -(u.dot v) := by
  cases u
  cases v
  simp only [Vec3.mul, Vec3.dot]
  ring

theorem Vec3.dot_sub (u a b : Vec3) : u.dot (a.sub b) = u.dot a - u.dot b := by
  cases u
  cases a
  cases b
  simp only [Vec3.sub, Vec3.dot]
  ring

theorem Vec3.normalize_dot_eq_zero {v w : Vec3} (h : v.dot w = 0) :
    v.normalize.dot w = 0 := by
  cases v with
  | mk x y z =>
    cases w with
    | mk a b c =>
      simp only [Vec3.dot] at h
      simp only [Vec3.normalize, Vec3.length, Vec3.lengthSq]
      split
      · simpa [Vec3.dot] using h
      · simp only [Vec3.dot]
        have hc : x / sqrtQ (x * x + y * y + z * z) * a +
            y / sqrtQ (x * x + y * y + z * z) * b +
            z / sqrtQ (x * x + y * y + z * z) * c =
            (x * a + y * b + z * c) / sqrtQ (x * x + y * y + z * z) := by
          ring
        rw [hc, h, zero_div]

theorem Vec3.normalize_neg (v : Vec3) :
    (v.mul (-1)).normalize = v.normalize.mul (-1) := by
  cases v with
  | mk x y z =>
    have harg : ((⟨x, y, z⟩ : Vec3).mul (-1)).lengthSq = (⟨x, y, z⟩ : Vec3).lengthSq := by
      simp only [Vec3.mul, Vec3.lengthSq]
      ring
    simp only [Vec3.normalize, Vec3.length, harg]
    split
    · rfl
    · simp only [Vec3.mul, Vec3.mk.injEq]
      refine ⟨by ring, by ring, by ring⟩

theorem Vec3.cross_reverse (pa pb pc : Vec3) :
    (pb.sub pc).cross (pa.sub pc) = ((pb.sub pa).cross (pc.sub pa)).mul (-1) := by
  cases pa
  cases pb
  cases pc
  simp only [Vec3.sub, Vec3.cross, Vec3.mul, Vec3.mk.injEq]
  refine ⟨by ring, by ring, by ring⟩

theorem calculatePlane_reverse_three (v0 v1 v2 : Vertex) :
    calculatePlane [v2, v1, v0] = (calculatePlane [v0, v1, v2]).flip := by
  simp only [calculatePlane, List.getD]
  simp only [List.get?]
  have hcross := Vec3.cross_reverse v0.position v1.position v2.position
  simp only [Option.getD_some]
  rw [hcross, Vec3.normalize_neg]
  have h0 : ((v1.position.sub v0.position).cross (v2.position.sub v0.position)).dot
      (v2.position.sub v0.position) = 0 := Vec3.dot_cross_right _ _
  have h1 := Vec3.normalize_dot_eq_zero h0
  rw [Vec3.dot_sub] at h1
  simp only [Plane.flip, Plane.mk.injEq, Vec3.neg_dot, true_and, neg_inj]
  linarith

theorem map_vertexClone (l : List Vertex) : l.map Vertex.clone = l := by
  have h : Vertex.clone = id := funext Vertex.clone_id
  rw [h, List.map_id]

theorem Polygon.clone_eq (p : Polygon) :
    p.clone = ⟨p.vertices, calculatePlane p.vertices⟩ := by
  simp [Polygon.clone, mkPolygon, map_vertexClone]

theorem getD_position_map_negNormal (vs : List Vertex) (i : ℕ) :
    ((vs.map negNormal).getD i default).position = (vs.getD i default).position := by
  induction vs generalizing i with
  | nil => rfl
  | cons v t ih =>
    cases i with
    | zero => simp [negNormal]
    | succ n => simpa using ih n

theorem calcPlane_map_negNormal (vs : List Vertex) :
    calculatePlane (vs.map negNormal) = calculatePlane vs := by
  simp only [calculatePlane, getD_position_map_negNormal]

theorem inv2_vertices (p : Polygon) :
    ((Polygon.clone ((Polygon.clone p).flip)).flip).vertices = p.vertices := by
  simp [Polygon.clone_eq, Polygon.flip_def, List.map_reverse, List.reverse_reverse,
    List.map_map, Function.comp_def, negNormal_negNormal]

theorem inv2_plane (p : Polygon) :
    ((Polygon.clone ((Polygon.clone p).flip)).flip).plane =
      (calculatePlane (p.vertices.reverse)).flip := by
  simp only [Polygon.clone_eq, Polygon.flip_def, Polygon.vertices, Polygon.plane]
  rw [calcPlane_map_negNormal]

theorem inv2_triangle (p : Polygon) (hpl : p.plane = calculatePlane p.vertices)
    (h3 : p.vertices.length = 3) :
    (Polygon.clone ((Polygon.clone p).flip)).flip = p := by
  have hv := inv2_vertices p
  have hp := inv2_plane p
  cases p with
  | mk vs pl =>
    simp only [Polygon.vertices] at h3 hv
    simp only [Polygon.plane] at hpl
    obtain ⟨a, b, c, rfl⟩ := List.length_eq_three.mp h3
    have hrev : ([a, b, c] : List Vertex).reverse = [c, b, a] := rfl
    rw [hrev, calculatePlane_reverse_three, Plane.flip_twice] at hp
    cases hq : (Polygon.clone ((Polygon.clone ⟨[a, b, c], pl⟩).flip)).flip with
    | mk qv qp =>
      rw [hq] at hv hp
      simp only [Polygon.vertices] at hv
      simp only [Polygon.plane] at hp
      rw [hv, hp, hpl]

theorem inverse_inverse_eq_map (A : CSG) :
    CSG.inverseOp (CSG.inverseOp A) =
      ⟨A.polygons.map (fun p => (Polygon.clone ((Polygon.clone p).flip)).flip)⟩ := by
  simp [CSG.inverseOp, CSG.clone, List.map_map, Function.comp_def]

theorem EPSILON_pos : (0 : ℚ) < EPSILON := by norm_num [EPSILON]

theorem classifyVertex_eq_spec (pl : Plane) (v : Vertex) :
    classifyVertex pl v = classifyVertexSpec pl v := by
  have hε := EPSILON_pos
  simp only [classifyVertex, classifyVertexSpec]
  by_cases hb : pl.normal.dot v.position - pl.w < -EPSILON
  · rw [if_pos hb, if_neg (fun h => by linarith [h.1]), if_pos (by linarith)]
  · by_cases hf : EPSILON < pl.normal.dot v.position - pl.w
    · rw [if_neg hb, if_pos hf, if_neg (fun h => by linarith [h.2]),
        if_neg (fun h => by linarith)]
    · rw [if_neg hb, if_neg hf, if_pos ⟨by linarith, by linarith⟩]

theorem classifyVertex_cases (pl : Plane) (v : Vertex) :
    classifyVertex pl v = 0 ∨ classifyVertex pl v = 1 ∨ classifyVertex pl v = 2 := by
  simp only [classifyVertex]
  split_ifs <;> simp [COPLANAR, FRONT, BACK]

theorem foldl_lor_closure {P Q : ℕ → Prop}
    (hP : ∀ a x, P a → Q x → P (Nat.lor a x)) :
    ∀ (l : List ℕ), (∀ x ∈ l, Q x) → ∀ a, P a → P (l.foldl Nat.lor a) := by
  intro l
  induction l with
  | nil => intro _ a ha; simpa using ha
  | cons x xs ih =>
    intro hmem a ha
    simp only [List.foldl_cons]
    exact ih (fun y hy => hmem y (List.mem_cons_of_mem x hy)) _
      (hP a x ha (hmem x (List.mem_cons_self x xs)))

theorem foldl_lor_le_three (l : List ℕ) (hl : ∀ x ∈ l, x = 0 ∨ x = 1 ∨ x = 2)
    (a : ℕ) (ha : a ≤ 3) : l.foldl Nat.lor a ≤ 3 := by
  refine foldl_lor_closure (P := fun b => b ≤ 3)
    (Q := fun x => x = 0 ∨ x = 1 ∨ x = 2) ?_ l hl a ha
  intro b x hb hx
  interval_cases b <;> rcases hx with rfl | rfl | rfl <;> decide

theorem foldl_lor_le_one (l : List ℕ) (hl : ∀ x ∈ l, x = 0 ∨ x = 1)
    (a : ℕ) (ha : a ≤ 1) : l.foldl Nat.lor a ≤ 1 := by
  refine foldl_lor_closure (P := fun b => b ≤ 1) (Q := fun x => x = 0 ∨ x = 1)
    ?_ l hl a ha
  intro b x hb hx
  interval_cases b <;> rcases hx with rfl | rfl <;> decide

theorem foldl_lor_in02 (l : List ℕ) (hl : ∀ x ∈ l, x = 0 ∨ x = 2)
    (a : ℕ) (ha : a = 0 ∨ a = 2) : l.foldl Nat.lor a = 0 ∨ l.foldl Nat.lor a = 2 := by
  refine foldl_lor_closure (P := fun b => b = 0 ∨ b = 2) (Q := fun x => x = 0 ∨ x = 2)
    ?_ l hl a ha
  intro b x hb hx
  rcases hb with rfl | rfl <;> rcases hx with rfl | rfl <;> decide

theorem foldl_lor_in13 (l : List ℕ) (hl : ∀ x ∈ l, x = 0 ∨ x = 1 ∨ x = 2)
    (a : ℕ) (ha : a = 1 ∨ a = 3) : l.foldl Nat.lor a = 1 ∨ l.foldl Nat.lor a = 3 := by
  refine foldl_lor_closure (P := fun b => b = 1 ∨ b = 3)
    (Q := fun x => x = 0 ∨ x = 1 ∨ x = 2) ?_ l hl a ha
  intro b x hb hx
  rcases hb with rfl | rfl <;> rcases hx with rfl | rfl | rfl <;> decide

theorem foldl_lor_in23 (l : List ℕ) (hl : ∀ x ∈ l, x = 0 ∨ x = 1 ∨ x = 2)
    (a : ℕ) (ha : a = 2 ∨ a = 3) : l.foldl Nat.lor a = 2 ∨ l.foldl Nat.lor a = 3 := by
  refine foldl_lor_closure (P := fun b => b = 2 ∨ b = 3)
    (Q := fun x => x = 0 ∨ x = 1 ∨ x = 2) ?_ l hl a ha
  intro b x hb hx
  rcases hb with rfl | rfl <;> rcases hx with rfl | rfl | rfl <;> decide

theorem foldl_lor_mem_one (l : List ℕ) (hl : ∀ x ∈ l, x = 0 ∨ x = 1 ∨ x = 2)
    (hm : 1 ∈ l) (a : ℕ) (ha : a ≤ 3) :
    l.foldl Nat.lor a = 1 ∨ l.foldl Nat.lor a = 3 := by
  induction l generalizing a with
  | nil => cases hm
  | cons x xs ih =>
    simp only [List.foldl_cons]
    rcases List.mem_cons.mp hm with rfl | hmem
    · refine foldl_lor_in13 xs (fun y hy => hl y (List.mem_cons_of_mem _ hy)) _ ?_
      interval_cases a <;> decide
    · refine ih (fun y hy => hl y (List.mem_cons_of_mem x hy)) hmem _ ?_
      have hx := hl x (List.mem_cons_self x xs)
      interval_cases a <;> rcases hx with rfl | rfl | rfl <;> decide

theorem foldl_lor_mem_two (l : List ℕ) (hl : ∀ x ∈ l, x = 0 ∨ x = 1 ∨ x = 2)
    (hm : 2 ∈ l) (a : ℕ) (ha : a ≤ 3) :
    l.foldl Nat.lor a = 2 ∨ l.foldl Nat.lor a = 3 := by
  induction l generalizing a with
  | nil => cases hm
  | cons x xs ih =>
    simp only [List.foldl_cons]
    rcases List.mem_cons.mp hm with rfl | hmem
    · refine foldl_lor_in23 xs (fun y hy => hl y (List.mem_cons_of_mem _ hy)) _ ?_
      interval_cases a <;> decide
    · refine ih (fun y hy => hl y (List.mem_cons_of_mem x hy)) hmem _ ?_
      have hx := hl x (List.mem_cons_self x xs)
      interval_cases a <;> rcases hx with rfl | rfl | rfl <;> decide

theorem foldl_lor_zero_iff (l : List ℕ) (hl : ∀ x ∈ l, x = 0 ∨ x = 1 ∨ x = 2) :
    l.foldl Nat.lor 0 = 0 ↔ ∀ x ∈ l, x = 0 := by
  constructor
  · intro h x hx
    rcases hl x hx with rfl | rfl | rfl
    · rfl
    · rcases foldl_lor_mem_one l hl hx 0 (by decide) with h1 | h1 <;> omega
    · rcases foldl_lor_mem_two l hl hx 0 (by decide) with h1 | h1 <;> omega
  · intro h
    refine foldl_lor_closure (P := fun b => b = 0) (Q := fun x => x = 0)
      ?_ l h 0 rfl
    rintro b x rfl rfl
    decide

theorem flatMap_congr_mem {α β : Type _} {l : List α} {f g : α → List β}
    (h : ∀ a ∈ l, f a = g a) : l.flatMap f = l.flatMap g := by
  induction l with
  | nil => rfl
  | cons x xs ih =>
    simp only [List.flatMap_cons, h x (List.mem_cons_self x xs)]
    rw [ih (fun a ha => h a (List.mem_cons_of_mem x ha))]

theorem zip_rotate_eq_range_map {α : Type _} [Inhabited α] (tv : List α) :
    tv.zip (tv.rotate 1) = (List.range tv.length).map
      (fun i => (tv.getD i default, tv.getD ((i + 1) % tv.length) default)) := by
  refine List.ext_getElem ?_ ?_
  · simp [List.length_zip, List.length_rotate]
  · intro n h1 h2
    have hn : n < tv.length := by
      simpa [List.length_zip, List.length_rotate] using h1
    have hmod : (n + 1) % tv.length < tv.length := Nat.mod_lt _ (by omega)
    simp only [List.getElem_zip, List.getElem_map, List.getElem_range]
    rw [List.getElem_rotate]
    rw [List.getD_eq_getElem tv default hn, List.getD_eq_getElem tv default hmod]

theorem getD_zip_eq {vs : List Vertex} {types : List ℕ}
    (hlen : types.length = vs.length) (k : ℕ) (hk : k < vs.length) :
    (vs.zip types).getD k default = (vs.getD k default, types.getD k 0) := by
  have hkz : k < (vs.zip types).length := by
    simp [List.length_zip, hlen]
    omega
  rw [List.getD_eq_getElem _ _ hkz, List.getElem_zip,
    List.getD_eq_getElem vs default hk, List.getD_eq_getElem types 0 (by omega)]

theorem spanEdge_eq_spec (pl : Plane) (vs : List Vertex) (types : List ℕ)
    (hlen : types.length = vs.length)
    (htypes : ∀ t ∈ types, t = 0 ∨ t = 1 ∨ t = 2) (i : ℕ) (hi : i < vs.length) :
    spanEdge pl vs types i =
      spanEdgeSpec pl ((vs.zip types).getD i default,
        (vs.zip types).getD ((i + 1) % vs.length) default) := by
  have hlen0 : 0 < vs.length := by omega
  have hj : (i + 1) % vs.length < vs.length := Nat.mod_lt _ hlen0
  rw [getD_zip_eq hlen i hi, getD_zip_eq hlen _ hj]
  have hti : types.getD i 0 ∈ types := by
    rw [List.getD_eq_getElem types 0 (by omega)]
    exact List.getElem_mem _
  have htj : types.getD ((i + 1) % vs.length) 0 ∈ types := by
    rw [List.getD_eq_getElem types 0 (by omega)]
    exact List.getElem_mem _
  simp only [spanEdge, spanEdgeSpec]
  rcases htypes _ hti with h1 | h1 | h1 <;> rcases htypes _ htj with h2 | h2 | h2 <;>
    rw [h1, h2] <;>
    simp +decide [FRONT, BACK, SPANNING, COPLANAR, Vertex.clone_id]

theorem spanRing_front_eq (pl : Plane) (vs : List Vertex) (types : List ℕ)
    (hlen : types.length = vs.length)
    (htypes : ∀ t ∈ types, t = 0 ∨ t = 1 ∨ t = 2) :
    (List.range vs.length).flatMap (fun i => (spanEdge pl vs types i).1) =
      ((vs.zip types).zip ((vs.zip types).rotate 1)).flatMap
        (fun e => (spanEdgeSpec pl e).1) := by
  rw [zip_rotate_eq_range_map (vs.zip types), List.flatMap_map]
  have hzlen : (vs.zip types).length = vs.length := by
    simp [List.length_zip, hlen]
  rw [hzlen]
  refine flatMap_congr_mem ?_
  intro i hi
  have hi2 : i < vs.length := List.mem_range.mp hi
  rw [spanEdge_eq_spec pl vs types hlen htypes i hi2]

theorem spanRing_back_eq (pl : Plane) (vs : List Vertex) (types : List ℕ)
    (hlen : types.length = vs.length)
    (htypes : ∀ t ∈ types, t = 0 ∨ t = 1 ∨ t = 2) :
    (List.range vs.length).flatMap (fun i => (spanEdge pl vs types i).2) =
      ((vs.zip types).zip ((vs.zip types).rotate 1)).flatMap
        (fun e => (spanEdgeSpec pl e).2) := by
  rw [zip_rotate_eq_range_map (vs.zip types), List.flatMap_map]
  have hzlen : (vs.zip types).length = vs.length := by
    simp [List.length_zip, hlen]
  rw [hzlen]
  refine flatMap_congr_mem ?_
  intro i hi
  have hi2 : i < vs.length := List.mem_range.mp hi
  rw [spanEdge_eq_spec pl vs types hlen htypes i hi2]

theorem splitPolygon_eq_spec (pl : Plane) (p : Polygon) :
    splitPolygon pl p = splitPolygonSpec pl p := by
  have hcl : classifyVertexSpec pl = classifyVertex pl :=
    funext fun v => (classifyVertex_eq_spec pl v).symm
  simp only [splitPolygon, splitPolygonSpec, hcl]
  have hmem : ∀ t ∈ p.vertices.map (classifyVertex pl), t = 0 ∨ t = 1 ∨ t = 2 := by
    intro t ht
    rcases List.mem_map.mp ht with ⟨v, _, rfl⟩
    exact classifyVertex_cases pl v
  have hlen : (p.vertices.map (classifyVertex pl)).length = p.vertices.length := by
    simp
  have e0 : COPLANAR = 0 := rfl
  have e1 : FRONT = 1 := rfl
  have e2 : BACK = 2 := rfl
  set types := p.vertices.map (classifyVertex pl) with htypes0
  set ptype := types.foldl Nat.lor 0 with hpt
  have hle3 : ptype ≤ 3 := foldl_lor_le_three types hmem 0 (by decide)
  by_cases h0 : ptype = COPLANAR
  · rw [if_pos h0, if_pos (show ∀ t ∈ types, t = COPLANAR from
      fun t ht => (foldl_lor_zero_iff types hmem).mp h0 t ht)]
  · have hnotall : ¬ ∀ t ∈ types, t = COPLANAR := fun h =>
      h0 ((foldl_lor_zero_iff types hmem).mpr h)
    by_cases h1 : ptype = FRONT
    · have hnb : ∀ t ∈ types, t ≠ BACK := by
        intro t ht hb
        rcases foldl_lor_mem_two types hmem (by rw [← e2, ← hb]; exact ht) 0 (by decide)
          with h | h <;> rw [e1] at h1 <;> omega
      rw [if_neg h0, if_pos h1, if_neg hnotall, if_pos hnb]
    · by_cases h2 : ptype = BACK
      · have hnotnb : ¬ ∀ t ∈ types, t ≠ BACK := by
          intro hall
          have hsm : ∀ t ∈ types, t = 0 ∨ t = 1 := by
            intro t ht
            rcases hmem t ht with h | h | h
            · exact Or.inl h
            · exact Or.inr h
            · exact absurd (h.trans e2.symm) (hall t ht)
          have := foldl_lor_le_one types hsm 0 (by decide)
          rw [e2] at h2
          omega
        have hnf : ∀ t ∈ types, t ≠ FRONT := by
          intro t ht hf
          rcases foldl_lor_mem_one types hmem (by rw [← e1, ← hf]; exact ht) 0 (by decide)
            with h | h <;> rw [e2] at h2 <;> omega
        rw [if_neg h0, if_neg h1, if_pos h2, if_neg hnotall, if_neg hnotnb, if_pos hnf]
      · have hnotnb : ¬ ∀ t ∈ types, t ≠ BACK := by
          intro hall
          have hsm : ∀ t ∈ types, t = 0 ∨ t = 1 := by
            intro t ht
            rcases hmem t ht with h | h | h
            · exact Or.inl h
            · exact Or.inr h
            · exact absurd (h.trans e2.symm) (hall t ht)
          have := foldl_lor_le_one types hsm 0 (by decide)
          rw [e0] at h0
          rw [e1] at h1
          omega
        have hnotnf : ¬ ∀ t ∈ types, t ≠ FRONT := by
          intro hall
          have hsm : ∀ t ∈ types, t = 0 ∨ t = 2 := by
            intro t ht
            rcases hmem t ht with h | h | h
            · exact Or.inl h
            · exact absurd (h.trans e1.symm) (hall t ht)
            · exact Or.inr h
          rcases foldl_lor_in02 types hsm 0 (Or.inl rfl) with h | h
          · rw [e0] at h0; omega
          · rw [e2] at h2; omega
        rw [if_neg h0, if_neg h1, if_neg h2, if_neg hnotall, if_neg hnotnb, if_neg hnotnf]
        rw [spanRing_front_eq pl p.vertices types hlen hmem,
          spanRing_back_eq pl p.vertices types hlen hmem]

theorem chainTri_plane (c : ℚ) : (chainTri c).plane = ⟨⟨0, 0, 1⟩, c⟩ := by
  simp only [chainTri, mkPolygon, calculatePlane, mkVertex, List.getD_cons_zero,
    List.getD_cons_succ, Option.getD_none]
  have h1 : ((⟨1, 0, c⟩ : Vec3).sub ⟨0, 0, c⟩) = ⟨1, 0, 0⟩ := by
    simp [Vec3.sub]
  have h2 : ((⟨0, 1, c⟩ : Vec3).sub ⟨0, 0, c⟩) = ⟨0, 1, 0⟩ := by
    simp [Vec3.sub]
  rw [h1, h2]
  have h3 : ((⟨1, 0, 0⟩ : Vec3).cross ⟨0, 1, 0⟩) = ⟨0, 0, 1⟩ := by
    simp [Vec3.cross]
  rw [h3]
  have h4 : ((⟨0, 0, 1⟩ : Vec3).normalize) = ⟨0, 0, 1⟩ := by decide
  rw [h4]
  simp [Vec3.dot]

theorem chainTri_vertices (c : ℚ) : (chainTri c).vertices =
    [mkVertex ⟨0, 0, c⟩ none none, mkVertex ⟨1, 0, c⟩ none none,
      mkVertex ⟨0, 1, c⟩ none none] := rfl

theorem chainPolys_length (c : ℚ) (k : ℕ) : (chainPolys c k).length = k := by
  induction k generalizing c with
  | zero => rfl
  | succ n ih => simp [chainPolys, ih]

theorem dot_z (x y d : ℚ) : (⟨0, 0, 1⟩ : Vec3).dot ⟨x, y, d⟩ = d := by
  simp [Vec3.dot]

theorem split_chain_self (c : ℚ) :
    splitPolygon ⟨⟨0, 0, 1⟩, c⟩ (chainTri c) = ⟨[chainTri c], [], [], []⟩ := by
  have hz : ∀ x y : ℚ, classifyVertex ⟨⟨0, 0, 1⟩, c⟩ (mkVertex ⟨x, y, c⟩ none none) =
      COPLANAR := by
    intro x y
    simp only [classifyVertex, mkVertex, Option.getD_none, dot_z]
    rw [if_neg (by norm_num [EPSILON]), if_neg (by norm_num [EPSILON])]
  simp only [splitPolygon, chainTri_vertices, List.map_cons, List.map_nil, hz]
  have hfold : ([COPLANAR, COPLANAR, COPLANAR] : List ℕ).foldl Nat.lor 0 = COPLANAR := by
    decide
  rw [hfold, if_pos rfl, chainTri_plane]
  rw [if_pos (by norm_num [Vec3.dot] : (0 : ℚ) < (⟨0, 0, 1⟩ : Vec3).dot ⟨0, 0, 1⟩)]

theorem split_chain_front (c d : ℚ) (h : c + 1 ≤ d) :
    splitPolygon ⟨⟨0, 0, 1⟩, c⟩ (chainTri d) = ⟨[], [], [chainTri d], []⟩ := by
  have hf : ∀ x y : ℚ, classifyVertex ⟨⟨0, 0, 1⟩, c⟩ (mkVertex ⟨x, y, d⟩ none none) =
      FRONT := by
    intro x y
    simp only [classifyVertex, mkVertex, Option.getD_none, dot_z]
    have hε1 : EPSILON < 1 := by norm_num [EPSILON]
    have hε0 : (0 : ℚ) < EPSILON := EPSILON_pos
    rw [if_neg (by linarith), if_pos (by linarith)]
  simp only [splitPolygon, chainTri_vertices, List.map_cons, List.map_nil, hf]
  have hfold : ([FRONT, FRONT, FRONT] : List ℕ).foldl Nat.lor 0 = FRONT := by decide
  rw [hfold, if_neg (by decide), if_pos rfl]

theorem chain_tail_splits (k : ℕ) : ∀ (c b : ℚ), c + 1 ≤ b →
    ((chainPolys b k).flatMap (fun p => (splitPolygon ⟨⟨0, 0, 1⟩, c⟩ p).coplanarFront ++
        (splitPolygon ⟨⟨0, 0, 1⟩, c⟩ p).coplanarBack) = [] ∧
      (chainPolys b k).flatMap (fun p => (splitPolygon ⟨⟨0, 0, 1⟩, c⟩ p).front) =
        chainPolys b k ∧
      (chainPolys b k).flatMap (fun p => (splitPolygon ⟨⟨0, 0, 1⟩, c⟩ p).back) = []) := by
  induction k with
  | zero => intro c b _; exact ⟨rfl, rfl, rfl⟩
  | succ n ih =>
    intro c b hb
    obtain ⟨ih1, ih2, ih3⟩ := ih c (b + 1) (by linarith)
    simp only [chainPolys, List.flatMap_cons, split_chain_front c b hb, ih1, ih2, ih3]
    exact ⟨rfl, rfl, rfl⟩

theorem buildOn_empty_step (fuel : ℕ) (polys : List Polygon) (hne : polys ≠ [])
    (pl : Plane) (hpl : (polys.getD 0 default).plane = pl) :
    Node.buildOn (fuel + 1) emptyNode polys =
      .mk (some pl)
        (polys.flatMap (fun p => (splitPolygon pl p).coplanarFront ++
          (splitPolygon pl p).coplanarBack))
        (if (polys.flatMap (fun p => (splitPolygon pl p).front)).length = 0 then none
          else if (polys.flatMap (fun p => (splitPolygon pl p).front)).length ≠ polys.length
            then some (Node.buildOn fuel emptyNode
              (polys.flatMap (fun p => (splitPolygon pl p).front)))
          else some emptyNode)
        (if (polys.flatMap (fun p => (splitPolygon pl p).back)).length = 0 then none
          else if (polys.flatMap (fun p => (splitPolygon pl p).back)).length ≠ polys.length
            then some (Node.buildOn fuel emptyNode
              (polys.flatMap (fun p => (splitPolygon pl p).back)))
          else some emptyNode) := by
  have hlen : polys.length ≠ 0 := fun h => hne (List.length_eq_zero.mp h)
  simp only [Node.buildOn, emptyNode, Node.plane, Node.polygons, Node.front, Node.back,
    List.length_nil, List.nil_append, Option.getD_none, hpl]
  rw [if_neg (by omega)]

theorem buildOn_chain_step (c : ℚ) (k : ℕ) (fuel : ℕ) :
    Node.buildOn (fuel + 1) emptyNode (chainPolys c (k + 1)) =
      .mk (some ⟨⟨0, 0, 1⟩, c⟩) [chainTri c]
        (if k = 0 then none
          else some (Node.buildOn fuel emptyNode (chainPolys (c + 1) k)))
        none := by
  obtain ⟨ht1, ht2, ht3⟩ := chain_tail_splits k c (c + 1) (by linarith)
  have hne : chainPolys c (k + 1) ≠ [] := by
    intro h
    have := chainPolys_length c (k + 1)
    rw [h] at this
    simp at this
  have hpl : ((chainPolys c (k + 1)).getD 0 default).plane = ⟨⟨0, 0, 1⟩, c⟩ := by
    simp only [chainPolys, List.getD_cons_zero, chainTri_plane]
  rw [buildOn_empty_step fuel _ hne _ hpl]
  simp only [chainPolys, List.flatMap_cons, split_chain_self c, ht1, ht2, ht3]
  simp only [List.append_nil, List.nil_append, List.length_cons, chainPolys_length,
    List.length_nil]
  rcases Nat.eq_zero_or_pos k with rfl | hk
  · simp [chainPolys]
  · have hk0 : k ≠ 0 := by omega
    have hkp : k ≠ k + 1 := by omega
    simp [hk0, hkp]

theorem countNodes_chain (k : ℕ) : ∀ (c : ℚ) (fuel : ℕ), k ≤ fuel → 1 ≤ k →
    countNodes (Node.buildOn fuel emptyNode (chainPolys c k)) = k := by
  induction k with
  | zero => omega
  | succ n ih =>
    intro c fuel hfuel _
    obtain ⟨f, rfl⟩ : ∃ f, fuel = f + 1 := ⟨fuel - 1, by omega⟩
    rw [buildOn_chain_step c n f]
    rcases Nat.eq_zero_or_pos n with rfl | hn
    · simp [countNodes]
    · rw [if_neg (by omega)]
      simp only [countNodes]
      rw [ih (c + 1) f (by omega) hn]
      omega

theorem buildOn_abort (fuel : ℕ) (node : Node) (polys : List Polygon)
    (h : 1000 < node.polygons.length) : Node.buildOn fuel node polys = node := by
  cases fuel with
  | zero => rfl
  | succ n =>
    simp only [Node.buildOn]
    rw [if_pos (Or.inr h)]

theorem buildOn_nil_abort (fuel : ℕ) (node : Node) :
    Node.buildOn fuel node [] = node := Node.build_nil fuel node

theorem getD_set_ne {α : Type _} (l : List α) (d : α) (r i : ℕ) (v : α) (h : i ≠ r) :
    (l.set r v).getD i d = l.getD i d := by
  by_cases hi : i < l.length
  · rw [List.getD_eq_getElem _ _ (by simpa [List.length_set] using hi),
      List.getD_eq_getElem _ _ hi, List.getElem_set_ne (by omega)]
  · have h1 : (l.set r v).length ≤ i := by
      rw [List.length_set]
      omega
    have h2 : l.length ≤ i := by omega
    rw [List.getD_eq_default _ _ h1, List.getD_eq_default _ _ h2]

theorem getD_append_left {α : Type _} (l l' : List α) (d : α) (n : ℕ)
    (h : n < l.length) : (l ++ l').getD n d = l.getD n d :=
  List.getD_append l l' d n h

namespace Heap

theorem Ext.rfl {nv np : ℕ} (σ : St) : Ext nv np σ σ :=
  ⟨le_refl _, le_refl _, fun _ _ => Eq.refl _, fun _ _ => Eq.refl _⟩

theorem Ext.comp {nv np : ℕ} {σ1 σ2 σ3 : St} (h1 : Ext nv np σ1 σ2)
    (h2 : Ext nv np σ2 σ3) : Ext nv np σ1 σ3 :=
  ⟨le_trans h1.vlen h2.vlen, le_trans h1.plen h2.plen,
    fun i hi => (h2.vpres i hi).trans (h1.vpres i hi),
    fun i hi => (h2.ppres i hi).trans (h1.ppres i hi)⟩

theorem Ext.readVec {nv np : ℕ} {σ σ2 : St} (h : Ext nv np σ σ2) {r : ℕ}
    (hr : r < nv) : readVec σ2 r = readVec σ r := h.vpres r hr

theorem Ext.readPlane {nv np : ℕ} {σ σ2 : St} (h : Ext nv np σ σ2) {r : ℕ}
    (hr : r < np) : readPlane σ2 r = readPlane σ r := h.ppres r hr

theorem allocVec_ext (nv np : ℕ) (σ : St) (v : Vec3) (hnv : nv ≤ σ.vecs.length) :
    Ext nv np σ (allocVec σ v).2 := by
  refine ⟨by simp [allocVec], le_refl _, ?_, fun i hi => Eq.refl _⟩
  intro i hi
  simp only [allocVec, readVec]
  exact getD_append_left _ _ _ _ (by omega)

theorem allocVec_fst (σ : St) (v : Vec3) : (allocVec σ v).1 = σ.vecs.length := rfl

theorem allocVec_planes (σ : St) (v : Vec3) : (allocVec σ v).2.planes = σ.planes := rfl

theorem allocVec_vlen (σ : St) (v : Vec3) :
    (allocVec σ v).2.vecs.length = σ.vecs.length + 1 := by simp [allocVec]

theorem allocPlane_ext (nv np : ℕ) (σ : St) (p : HPlane) (hnp : np ≤ σ.planes.length) :
    Ext nv np σ (allocPlane σ p).2 := by
  refine ⟨le_refl _, by simp [allocPlane], fun i hi => Eq.refl _, ?_⟩
  intro i hi
  simp only [allocPlane, readPlane]
  exact getD_append_left _ _ _ _ (by omega)

theorem allocPlane_fst (σ : St) (p : HPlane) : (allocPlane σ p).1 = σ.planes.length := rfl

theorem allocPlane_vecs (σ : St) (p : HPlane) : (allocPlane σ p).2.vecs = σ.vecs := rfl

theorem allocPlane_plen (σ : St) (p : HPlane) :
    (allocPlane σ p).2.planes.length = σ.planes.length + 1 := by simp [allocPlane]

theorem writeVec_ext (nv np : ℕ) (σ : St) (r : ℕ) (v : Vec3) (hr : nv ≤ r) :
    Ext nv np σ (writeVec σ r v) := by
  refine ⟨by simp [writeVec], le_refl _, ?_, fun i hi => Eq.refl _⟩
  intro i hi
  simp only [writeVec, readVec]
  exact getD_set_ne _ _ _ _ _ (by omega)

theorem writeVec_planes (σ : St) (r : ℕ) (v : Vec3) : (writeVec σ r v).planes = σ.planes :=
  rfl

theorem writeVec_vlen (σ : St) (r : ℕ) (v : Vec3) :
    (writeVec σ r v).vecs.length = σ.vecs.length := by simp [writeVec]

theorem writePlane_ext (nv np : ℕ) (σ : St) (r : ℕ) (p : HPlane) (hr : np ≤ r) :
    Ext nv np σ (writePlane σ r p) := by
  refine ⟨le_refl _, by simp [writePlane], fun i hi => Eq.refl _, ?_⟩
  intro i hi
  simp only [writePlane, readPlane]
  exact getD_set_ne _ _ _ _ _ (by omega)

theorem writePlane_vecs (σ : St) (r : ℕ) (p : HPlane) : (writePlane σ r p).vecs = σ.vecs :=
  rfl

theorem writePlane_plen (σ : St) (r : ℕ) (p : HPlane) :
    (writePlane σ r p).planes.length = σ.planes.length := by simp [writePlane]

theorem storeGE_allocVec (nv np : ℕ) (σ : St) (v : Vec3) (h : storeGE nv np σ) :
    storeGE nv np (allocVec σ v).2 := by
  intro i h1 h2
  exact h i h1 (by simpa [allocVec] using h2)

theorem storeGE_writeVec (nv np : ℕ) (σ : St) (r : ℕ) (v : Vec3) (h : storeGE nv np σ) :
    storeGE nv np (writeVec σ r v) := by
  intro i h1 h2
  exact h i h1 (by simpa [writeVec] using h2)

theorem storeGE_allocPlane (nv np : ℕ) (σ : St) (p : HPlane) (hv : nv ≤ p.normal)
    (h : storeGE nv np σ) : storeGE nv np (allocPlane σ p).2 := by
  intro i h1 h2
  simp only [allocPlane, readPlane] at h2 ⊢
  simp only [List.length_append, List.length_cons, List.length_nil] at h2
  by_cases hi : i < σ.planes.length
  · rw [getD_append_left _ _ _ _ hi]
    exact h i h1 hi
  · have : i = σ.planes.length := by omega
    subst this
    rw [List.getD_eq_getElem _ _ (by simp), List.getElem_append_right (by omega)]
    simpa using hv

theorem storeGE_writePlane (nv np : ℕ) (σ : St) (r : ℕ) (p : HPlane)
    (hv : nv ≤ p.normal) (h : storeGE nv np σ) : storeGE nv np (writePlane σ r p) := by
  intro i h1 h2
  simp only [writePlane, readPlane, List.length_set] at h2 ⊢
  by_cases hi : i = r
  · subst hi
    rw [List.getD_eq_getElem _ _ (by simpa using h2), List.getElem_set_self]
    exact hv
  · rw [getD_set_ne _ _ _ _ _ hi]
    exact h i h1 h2

end Heap

namespace Heap

theorem vertexIn_mono {nv np : ℕ} {σ σ2 : St} (h : Ext nv np σ σ2) {v : HVertex}
    (hv : vertexIn nv σ v) : vertexIn nv σ2 v :=
  ⟨hv.1, lt_of_lt_of_le hv.2 h.vlen⟩

theorem polyIn_mono {nv np : ℕ} {σ σ2 : St} (h : Ext nv np σ σ2) {p : HPolygon}
    (hp : polyIn nv np σ p) : polyIn nv np σ2 p :=
  ⟨hp.1, lt_of_lt_of_le hp.2.1 h.plen, fun v hv => vertexIn_mono h (hp.2.2 v hv)⟩

theorem polysIn_mono {nv np : ℕ} {σ σ2 : St} (h : Ext nv np σ σ2) {ps : List HPolygon}
    (hp : polysIn nv np σ ps) : polysIn nv np σ2 ps :=
  fun p hq => polyIn_mono h (hp p hq)

theorem nodeIn_mono {nv np : ℕ} {σ σ2 : St} (h : Ext nv np σ σ2) :
    ∀ {t : HNode}, nodeIn nv np σ t → nodeIn nv np σ2 t
  | .mk pl ps fr bk, ht => by
    simp only [nodeIn] at ht ⊢
    obtain ⟨h1, h2, h3, h4⟩ := ht
    refine ⟨fun r hr => ⟨(h1 r hr).1, lt_of_lt_of_le (h1 r hr).2 h.plen⟩,
      polysIn_mono h h2, ?_, ?_⟩
    · intro t ht2
      exact nodeIn_mono h (h3 t ht2)
    · intro t ht2
      exact nodeIn_mono h (h4 t ht2)

theorem newVertex_frame (nv np : ℕ) (σ : St) (pos : Vec3) (normalArg : Option ℕ)
    (uv : Option (ℚ × ℚ)) (hnv : nv ≤ σ.vecs.length) (hst : storeGE nv np σ) :
    Ext nv np σ (newVertex σ pos normalArg uv).2 ∧
      storeGE nv np (newVertex σ pos normalArg uv).2 ∧
      vertexIn nv (newVertex σ pos normalArg uv).2 (newVertex σ pos normalArg uv).1 := by
  refine ⟨allocVec_ext nv np σ _ hnv, storeGE_allocVec nv np σ _ hst, ?_⟩
  constructor
  · simpa [newVertex, allocVec_fst] using hnv
  · simp [newVertex, allocVec_fst, allocVec_vlen]

theorem cloneVertex_frame (nv np : ℕ) (σ : St) (v : HVertex)
    (hnv : nv ≤ σ.vecs.length) (hst : storeGE nv np σ) :
    Ext nv np σ (cloneVertex σ v).2 ∧ storeGE nv np (cloneVertex σ v).2 ∧
      vertexIn nv (cloneVertex σ v).2 (cloneVertex σ v).1 :=
  newVertex_frame nv np σ v.position (some v.normal) (some v.uv) hnv hst

theorem hCalculatePlane_frame (nv np : ℕ) (σ : St) (vs : List HVertex)
    (hnv : nv ≤ σ.vecs.length) (hnp : np ≤ σ.planes.length) (hst : storeGE nv np σ) :
    Ext nv np σ (hCalculatePlane σ vs).2 ∧ storeGE nv np (hCalculatePlane σ vs).2 ∧
      np ≤ (hCalculatePlane σ vs).1 ∧
      (hCalculatePlane σ vs).1 < (hCalculatePlane σ vs).2.planes.length := by
  have e1 := allocVec_ext (v := ((((vs.getD 1 default).position).sub
    (vs.getD 0 default).position).cross (((vs.getD 2 default).position).sub
    (vs.getD 0 default).position)).normalize) nv np σ hnv
  constructor
  · refine Ext.comp e1 (allocPlane_ext nv np _ _ ?_)
    simpa [allocVec] using hnp
  constructor
  · refine storeGE_allocPlane nv np _ _ ?_ (storeGE_allocVec nv np σ _ hst)
    simpa [allocVec_fst] using hnv
  constructor
  · simpa [hCalculatePlane, allocPlane_fst, allocVec] using hnp
  · simp [hCalculatePlane, allocPlane_fst, allocPlane_plen]

theorem hMkPolygon_frame (nv np : ℕ) (σ : St) (vs : List HVertex)
    (hnv : nv ≤ σ.vecs.length) (hnp : np ≤ σ.planes.length) (hst : storeGE nv np σ)
    (hvs : ∀ v ∈ vs, vertexIn nv σ v) :
    Ext nv np σ (hMkPolygon σ vs).2 ∧ storeGE nv np (hMkPolygon σ vs).2 ∧
      polyIn nv np (hMkPolygon σ vs).2 (hMkPolygon σ vs).1 := by
  obtain ⟨he, hs, hp1, hp2⟩ := hCalculatePlane_frame nv np σ vs hnv hnp hst
  exact ⟨he, hs, hp1, hp2, fun v hv => vertexIn_mono he (hvs v hv)⟩

theorem cloneVertices_aux (nv np : ℕ) : ∀ (vs : List HVertex) (acc : List HVertex)
    (σ : St), nv ≤ σ.vecs.length → storeGE nv np σ →
    (∀ v ∈ acc, vertexIn nv σ v) →
    Ext nv np σ (vs.foldl (fun acc2 v =>
        let a := cloneVertex acc2.2 v
        (acc2.1 ++ [a.1], a.2)) (acc, σ)).2 ∧
      storeGE nv np (vs.foldl (fun acc2 v =>
        let a := cloneVertex acc2.2 v
        (acc2.1 ++ [a.1], a.2)) (acc, σ)).2 ∧
      ∀ v ∈ (vs.foldl (fun acc2 v =>
        let a := cloneVertex acc2.2 v
        (acc2.1 ++ [a.1], a.2)) (acc, σ)).1,
        vertexIn nv (vs.foldl (fun acc2 v =>
          let a := cloneVertex acc2.2 v
          (acc2.1 ++ [a.1], a.2)) (acc, σ)).2 v := by
  intro vs
  induction vs with
  | nil => exact fun acc σ hnv hst hacc => ⟨Ext.rfl σ, hst, hacc⟩
  | cons v vs ih =>
    intro acc σ hnv hst hacc
    simp only [List.foldl_cons]
    obtain ⟨he, hs, hv⟩ := cloneVertex_frame nv np σ v hnv hst
    obtain ⟨he2, hs2, hout⟩ := ih (acc ++ [(cloneVertex σ v).1]) (cloneVertex σ v).2
      (le_trans hnv he.vlen) hs
      (by
        intro x hx
        rcases List.mem_append.mp hx with hx | hx
        · exact vertexIn_mono he (hacc x hx)
        · rw [List.mem_singleton.mp hx]
          exact hv)
    exact ⟨Ext.comp he he2, hs2, hout⟩

theorem cloneVertices_frame (nv np : ℕ) (σ : St) (vs : List HVertex)
    (hnv : nv ≤ σ.vecs.length) (hst : storeGE nv np σ) :
    Ext nv np σ (cloneVertices σ vs).2 ∧ storeGE nv np (cloneVertices σ vs).2 ∧
      ∀ v ∈ (cloneVertices σ vs).1, vertexIn nv (cloneVertices σ vs).2 v :=
  cloneVertices_aux nv np vs [] σ hnv hst (fun _ hx => absurd hx (List.not_mem_nil _))

theorem hClonePolygon_frame (nv np : ℕ) (σ : St) (p : HPolygon)
    (hnv : nv ≤ σ.vecs.length) (hnp : np ≤ σ.planes.length) (hst : storeGE nv np σ) :
    Ext nv np σ (hClonePolygon σ p).2 ∧ storeGE nv np (hClonePolygon σ p).2 ∧
      polyIn nv np (hClonePolygon σ p).2 (hClonePolygon σ p).1 := by
  obtain ⟨he, hs, hout⟩ := cloneVertices_frame nv np σ p.vertices hnv hst
  obtain ⟨he2, hs2, hp⟩ := hMkPolygon_frame nv np (cloneVertices σ p.vertices).2
    (cloneVertices σ p.vertices).1 (le_trans hnv he.vlen) (le_trans hnp he.plen) hs hout
  exact ⟨Ext.comp he he2, hs2, hp⟩

theorem hCloneCSG_aux (nv np : ℕ) : ∀ (ps : List HPolygon) (acc : List HPolygon)
    (σ : St), nv ≤ σ.vecs.length → np ≤ σ.planes.length → storeGE nv np σ →
    polysIn nv np σ acc →
    Ext nv np σ (ps.foldl (fun acc2 p =>
        let a := hClonePolygon acc2.2 p
        (acc2.1 ++ [a.1], a.2)) (acc, σ)).2 ∧
      storeGE nv np (ps.foldl (fun acc2 p =>
        let a := hClonePolygon acc2.2 p
        (acc2.1 ++ [a.1], a.2)) (acc, σ)).2 ∧
      polysIn nv np (ps.foldl (fun acc2 p =>
        let a := hClonePolygon acc2.2 p
        (acc2.1 ++ [a.1], a.2)) (acc, σ)).2
        (ps.foldl (fun acc2 p =>
          let a := hClonePolygon acc2.2 p
          (acc2.1 ++ [a.1], a.2)) (acc, σ)).1 := by
  intro ps
  induction ps with
  | nil => exact fun acc σ hnv hnp hst hacc => ⟨Ext.rfl σ, hst, hacc⟩
  | cons p ps ih =>
    intro acc σ hnv hnp hst hacc
    simp only [List.foldl_cons]
    obtain ⟨he, hs, hp⟩ := hClonePolygon_frame nv np σ p hnv hnp hst
    obtain ⟨he2, hs2, hout⟩ := ih (acc ++ [(hClonePolygon σ p).1]) (hClonePolygon σ p).2
      (le_trans hnv he.vlen) (le_trans hnp he.plen) hs
      (by
        intro x hx
        rcases List.mem_append.mp hx with hx | hx
        · exact polyIn_mono he (hacc x hx)
        · rw [List.mem_singleton.mp hx]
          exact hp)
    exact ⟨Ext.comp he he2, hs2, hout⟩

theorem hCloneCSG_frame (nv np : ℕ) (σ : St) (ps : List HPolygon)
    (hnv : nv ≤ σ.vecs.length) (hnp : np ≤ σ.planes.length) (hst : storeGE nv np σ) :
    Ext nv np σ (hCloneCSG σ ps).2 ∧ storeGE nv np (hCloneCSG σ ps).2 ∧
      polysIn nv np (hCloneCSG σ ps).2 (hCloneCSG σ ps).1 :=
  hCloneCSG_aux nv np ps [] σ hnv hnp hst (fun _ hx => absurd hx (List.not_mem_nil _))

end Heap

namespace Heap

theorem flip_vertex_fold_frame (nv np : ℕ) : ∀ (vs : List HVertex) (σ : St),
    (∀ v ∈ vs, nv ≤ v.normal) → storeGE nv np σ →
    Ext nv np σ (vs.foldl
      (fun σ0 v => writeVec σ0 v.normal ((readVec σ0 v.normal).mul (-1))) σ) ∧
    storeGE nv np (vs.foldl
      (fun σ0 v => writeVec σ0 v.normal ((readVec σ0 v.normal).mul (-1))) σ) := by
  intro vs
  induction vs with
  | nil => exact fun σ _ hst => ⟨Ext.rfl σ, hst⟩
  | cons v vs ih =>
    intro σ hvs hst
    simp only [List.foldl_cons]
    obtain ⟨he2, hs2⟩ := ih (writeVec σ v.normal ((readVec σ v.normal).mul (-1)))
      (fun x hx => hvs x (List.mem_cons_of_mem v hx))
      (storeGE_writeVec nv np σ _ _ hst)
    exact ⟨Ext.comp (writeVec_ext nv np σ _ _ (hvs v (List.mem_cons_self v vs))) he2, hs2⟩

theorem hFlipPolygon_frame (nv np : ℕ) (σ : St) (p : HPolygon)
    (hst : storeGE nv np σ) (hp : polyIn nv np σ p) :
    Ext nv np σ (hFlipPolygon σ p).2 ∧ storeGE nv np (hFlipPolygon σ p).2 ∧
      polyIn nv np (hFlipPolygon σ p).2 (hFlipPolygon σ p).1 := by
  obtain ⟨hpl1, hpl2, hpv⟩ := hp
  obtain ⟨he1, hs1⟩ := flip_vertex_fold_frame nv np p.vertices σ
    (fun v hv => (hpv v hv).1) hst
  set σ1 := p.vertices.foldl
    (fun σ0 v => writeVec σ0 v.normal ((readVec σ0 v.normal).mul (-1))) σ with hσ1
  have hpl2b : p.plane < σ1.planes.length := lt_of_lt_of_le hpl2 he1.plen
  have hnc : nv ≤ (readPlane σ1 p.plane).normal := hs1 p.plane hpl1 hpl2b
  have he2 := writeVec_ext nv np σ1 (readPlane σ1 p.plane).normal
    ((readVec σ1 (readPlane σ1 p.plane).normal).mul (-1)) hnc
  have hs2 := storeGE_writeVec nv np σ1 (readPlane σ1 p.plane).normal
    ((readVec σ1 (readPlane σ1 p.plane).normal).mul (-1)) hs1
  set σ2 := writeVec σ1 (readPlane σ1 p.plane).normal
    ((readVec σ1 (readPlane σ1 p.plane).normal).mul (-1)) with hσ2
  have he3 := writePlane_ext nv np σ2 p.plane
    ⟨(readPlane σ1 p.plane).normal, -(readPlane σ1 p.plane).w⟩ hpl1
  have hs3 := storeGE_writePlane nv np σ2 p.plane
    ⟨(readPlane σ1 p.plane).normal, -(readPlane σ1 p.plane).w⟩ hnc hs2
  have heall : Ext nv np σ (hFlipPolygon σ p).2 := by
    simp only [hFlipPolygon]
    exact Ext.comp he1 (Ext.comp he2 he3)
  refine ⟨heall, ?_, ?_⟩
  · simp only [hFlipPolygon]
    exact hs3
  · refine ⟨hpl1, ?_, ?_⟩
    · exact lt_of_lt_of_le hpl2 heall.plen
    · intro v hv
      simp only [hFlipPolygon] at hv ⊢
      have hv2 : v ∈ p.vertices := List.mem_reverse.mp hv
      exact vertexIn_mono heall (hpv v hv2)

theorem hFlipAll_frame (nv np : ℕ) : ∀ (ps : List HPolygon) (acc : List HPolygon)
    (σ : St), storeGE nv np σ → polysIn nv np σ ps → polysIn nv np σ acc →
    Ext nv np σ (ps.foldl (fun (acc2 : List HPolygon × St) p =>
        let b := hFlipPolygon acc2.2 p
        (acc2.1 ++ [b.1], b.2)) (acc, σ)).2 ∧
      storeGE nv np (ps.foldl (fun (acc2 : List HPolygon × St) p =>
        let b := hFlipPolygon acc2.2 p
        (acc2.1 ++ [b.1], b.2)) (acc, σ)).2 ∧
      polysIn nv np (ps.foldl (fun (acc2 : List HPolygon × St) p =>
        let b := hFlipPolygon acc2.2 p
        (acc2.1 ++ [b.1], b.2)) (acc, σ)).2
        (ps.foldl (fun (acc2 : List HPolygon × St) p =>
          let b := hFlipPolygon acc2.2 p
          (acc2.1 ++ [b.1], b.2)) (acc, σ)).1 := by
  intro ps
  induction ps with
  | nil => exact fun acc σ hst _ hacc => ⟨Ext.rfl σ, hst, hacc⟩
  | cons p ps ih =>
    intro acc σ hst hps hacc
    simp only [List.foldl_cons]
    obtain ⟨he, hs, hp⟩ := hFlipPolygon_frame nv np σ p hst
      (hps p (List.mem_cons_self p ps))
    obtain ⟨he2, hs2, hout⟩ := ih (acc ++ [(hFlipPolygon σ p).1]) (hFlipPolygon σ p).2 hs
      (fun x hx => polyIn_mono he (hps x (List.mem_cons_of_mem p hx)))
      (by
        intro x hx
        rcases List.mem_append.mp hx with hx | hx
        · exact polyIn_mono he (hacc x hx)
        · rw [List.mem_singleton.mp hx]
          exact hp)
    exact ⟨Ext.comp he he2, hs2, hout⟩

theorem hInterpolateVertex_frame (nv np : ℕ) (σ : St) (v1 v2 : HVertex) (t : ℚ)
    (hnv : nv ≤ σ.vecs.length) (hst : storeGE nv np σ) :
    Ext nv np σ (hInterpolateVertex σ v1 v2 t).2 ∧
      storeGE nv np (hInterpolateVertex σ v1 v2 t).2 ∧
      vertexIn nv (hInterpolateVertex σ v1 v2 t).2 (hInterpolateVertex σ v1 v2 t).1 := by
  have he1 := allocVec_ext (v := ((readVec σ v1.normal).mul (1 - t)).add
    ((readVec σ v2.normal).mul t)) nv np σ hnv
  obtain ⟨he2, hs2, hv⟩ := newVertex_frame nv np
    (allocVec σ (((readVec σ v1.normal).mul (1 - t)).add ((readVec σ v2.normal).mul t))).2
    ((v1.position.mul (1 - t)).add (v2.position.mul t))
    (some (allocVec σ (((readVec σ v1.normal).mul (1 - t)).add
      ((readVec σ v2.normal).mul t))).1)
    (some (v1.uv.1 * (1 - t) + v2.uv.1 * t, v1.uv.2 * (1 - t) + v2.uv.2 * t))
    (le_trans hnv he1.vlen) (storeGE_allocVec nv np σ _ hst)
  exact ⟨Ext.comp he1 he2, hs2, hv⟩

end Heap

namespace Heap

theorem hSpanStep_frame (nv np : ℕ) (pc : HPlane) (n : Vec3) (vs : List HVertex)
    (types : List ℕ) (f b : List HVertex) (σ0 : St) (i : ℕ)
    (hnv : nv ≤ σ0.vecs.length) (hst : storeGE nv np σ0)
    (hvs : ∀ v ∈ vs, vertexIn nv σ0 v) (hi : i < vs.length)
    (hf : ∀ v ∈ f, vertexIn nv σ0 v) (hb : ∀ v ∈ b, vertexIn nv σ0 v) :
    Ext nv np σ0 (hSpanStep pc n vs types (f, b, σ0) i).2.2 ∧
      storeGE nv np (hSpanStep pc n vs types (f, b, σ0) i).2.2 ∧
      (∀ v ∈ (hSpanStep pc n vs types (f, b, σ0) i).1,
        vertexIn nv (hSpanStep pc n vs types (f, b, σ0) i).2.2 v) ∧
      (∀ v ∈ (hSpanStep pc n vs types (f, b, σ0) i).2.1,
        vertexIn nv (hSpanStep pc n vs types (f, b, σ0) i).2.2 v) := by
  have hvi : vertexIn nv σ0 (vs.getD i default) := by
    refine hvs _ ?_
    rw [List.getD_eq_getElem _ _ hi]
    exact List.getElem_mem hi
  simp only [hSpanStep]
  set ti := types.getD i 0 with hti
  set tj := types.getD ((i + 1) % vs.length) 0 with htj
  set vi := vs.getD i default with hvidef
  set vj := vs.getD ((i + 1) % vs.length) default with hvjdef
  have hkeepF : ∀ (σx : St), (∀ y ∈ (if ti ≠ BACK then [vi] else []), vertexIn nv σx y) ↔
      (ti ≠ BACK → vertexIn nv σx vi) := by
    intro σx
    split_ifs with h <;> simp [h]
  by_cases h2 : ti ≠ FRONT
  · by_cases h3 : ti ≠ BACK
    · -- bk clones vi
      simp only [if_pos h2, if_pos h3, if_neg (not_not.mpr rfl)]
      obtain ⟨he1, hs1, hv1⟩ := cloneVertex_frame nv np σ0 vi hnv hst
      set σ1 := (cloneVertex σ0 vi).2 with hσ1
      by_cases h4 : ti.lor tj = SPANNING
      · simp only [if_pos h4]
        obtain ⟨he2, hs2, hv2⟩ := hInterpolateVertex_frame nv np σ1 vi vj
          ((pc.w - n.dot vi.position) / (n.dot (vj.position.sub vi.position)))
          (le_trans hnv he1.vlen) hs1
        set σ2 := (hInterpolateVertex σ1 vi vj
          ((pc.w - n.dot vi.position) / (n.dot (vj.position.sub vi.position)))).2 with hσ2
        obtain ⟨he3, hs3, hv3⟩ := cloneVertex_frame nv np σ2
          (hInterpolateVertex σ1 vi vj
            ((pc.w - n.dot vi.position) / (n.dot (vj.position.sub vi.position)))).1
          (le_trans (le_trans hnv he1.vlen) he2.vlen) hs2
        have heall := Ext.comp he1 (Ext.comp he2 he3)
        refine ⟨heall, hs3, ?_, ?_⟩
        · intro v hv
          simp only [List.mem_append] at hv
          rcases hv with (hv | hv) | hv
          · exact vertexIn_mono heall (hf v hv)
          · rw [List.mem_singleton.mp hv]
            exact vertexIn_mono heall hvi
          · rw [List.mem_singleton.mp hv]
            exact vertexIn_mono he3 hv2
        · intro v hv
          simp only [List.mem_append] at hv
          rcases hv with (hv | hv) | hv
          · exact vertexIn_mono heall (hb v hv)
          · rw [List.mem_singleton.mp hv]
            exact vertexIn_mono (Ext.comp he2 he3) hv1
          · rw [List.mem_singleton.mp hv]
            exact hv3
      · simp only [if_neg h4]
        refine ⟨he1, hs1, ?_, ?_⟩
        · intro v hv
          simp only [List.mem_append, List.not_mem_nil, or_false] at hv
          rcases hv with hv | hv
          · exact vertexIn_mono he1 (hf v hv)
          · rw [List.mem_singleton.mp hv]
            exact vertexIn_mono he1 hvi
        · intro v hv
          simp only [List.mem_append, List.not_mem_nil, or_false] at hv
          rcases hv with hv | hv
          · exact vertexIn_mono he1 (hb v hv)
          · rw [List.mem_singleton.mp hv]
            exact hv1
    · -- ti = BACK: bk keeps vi, keepF empty
      simp only [if_pos h2, if_neg h3]
      by_cases h4 : ti.lor tj = SPANNING
      · simp only [if_pos h4]
        obtain ⟨he2, hs2, hv2⟩ := hInterpolateVertex_frame nv np σ0 vi vj
          ((pc.w - n.dot vi.position) / (n.dot (vj.position.sub vi.position))) hnv hst
        set σ2 := (hInterpolateVertex σ0 vi vj
          ((pc.w - n.dot vi.position) / (n.dot (vj.position.sub vi.position)))).2 with hσ2
        obtain ⟨he3, hs3, hv3⟩ := cloneVertex_frame nv np σ2
          (hInterpolateVertex σ0 vi vj
            ((pc.w - n.dot vi.position) / (n.dot (vj.position.sub vi.position)))).1
          (le_trans hnv he2.vlen) hs2
        have heall := Ext.comp he2 he3
        refine ⟨heall, hs3, ?_, ?_⟩
        · intro v hv
          simp only [List.mem_append, List.not_mem_nil, or_false] at hv
          rcases hv with hv | hv
          · exact vertexIn_mono heall (hf v hv)
          · rw [List.mem_singleton.mp hv]
            exact vertexIn_mono he3 hv2
        · intro v hv
          simp only [List.mem_append] at hv
          rcases hv with (hv | hv) | hv
          · exact vertexIn_mono heall (hb v hv)
          · rw [List.mem_singleton.mp hv]
            exact vertexIn_mono heall hvi
          · rw [List.mem_singleton.mp hv]
            exact hv3
      · simp only [if_neg h4]
        refine ⟨Ext.rfl σ0, hst, ?_, ?_⟩
        · intro v hv
          simp only [List.mem_append, List.not_mem_nil, or_false] at hv
          exact hf v hv
        · intro v hv
          simp only [List.mem_append, List.not_mem_nil, or_false] at hv
          rcases hv with hv | hv
          · exact hb v hv
          · rw [List.mem_singleton.mp hv]
            exact hvi
  · -- ti = FRONT: bk empty, keepF keeps vi
    have h3 : ti ≠ BACK := by
      rw [not_not.mp h2]
      decide
    simp only [if_neg h2, if_pos h3]
    by_cases h4 : ti.lor tj = SPANNING
    · simp only [if_pos h4]
      obtain ⟨he2, hs2, hv2⟩ := hInterpolateVertex_frame nv np σ0 vi vj
        ((pc.w - n.dot vi.position) / (n.dot (vj.position.sub vi.position))) hnv hst
      set σ2 := (hInterpolateVertex σ0 vi vj
        ((pc.w - n.dot vi.position) / (n.dot (vj.position.sub vi.position)))).2 with hσ2
      obtain ⟨he3, hs3, hv3⟩ := cloneVertex_frame nv np σ2
        (hInterpolateVertex σ0 vi vj
          ((pc.w - n.dot vi.position) / (n.dot (vj.position.sub vi.position)))).1
        (le_trans hnv he2.vlen) hs2
      have heall := Ext.comp he2 he3
      refine ⟨heall, hs3, ?_, ?_⟩
      · intro v hv
        simp only [List.mem_append] at hv
        rcases hv with (hv | hv) | hv
        · exact vertexIn_mono heall (hf v hv)
        · rw [List.mem_singleton.mp hv]
          exact vertexIn_mono heall hvi
        · rw [List.mem_singleton.mp hv]
          exact vertexIn_mono he3 hv2
      · intro v hv
        simp only [List.mem_append, List.not_mem_nil, or_false] at hv
        rcases hv with hv | hv
        · exact vertexIn_mono heall (hb v hv)
        · rw [List.mem_singleton.mp hv]
          exact hv3
    · simp only [if_neg h4]
      refine ⟨Ext.rfl σ0, hst, ?_, ?_⟩
      · intro v hv
        simp only [List.mem_append, List.not_mem_nil, or_false] at hv
        rcases hv with hv | hv
        · exact hf v hv
        · rw [List.mem_singleton.mp hv]
          exact hvi
      · intro v hv
        simp only [List.mem_append, List.not_mem_nil, List.not_mem_nil, or_false] at hv
        exact hb v hv

end Heap

namespace Heap

theorem spanFold_frame (nv np : ℕ) (pc : HPlane) (n : Vec3) (vs : List HVertex)
    (types : List ℕ) : ∀ (is : List ℕ) (f b : List HVertex) (σ : St),
    nv ≤ σ.vecs.length → storeGE nv np σ → (∀ v ∈ vs, vertexIn nv σ v) →
    (∀ i ∈ is, i < vs.length) → (∀ v ∈ f, vertexIn nv σ v) →
    (∀ v ∈ b, vertexIn nv σ v) →
    Ext nv np σ (is.foldl (hSpanStep pc n vs types) (f, b, σ)).2.2 ∧
      storeGE nv np (is.foldl (hSpanStep pc n vs types) (f, b, σ)).2.2 ∧
      (∀ v ∈ (is.foldl (hSpanStep pc n vs types) (f, b, σ)).1,
        vertexIn nv (is.foldl (hSpanStep pc n vs types) (f, b, σ)).2.2 v) ∧
      (∀ v ∈ (is.foldl (hSpanStep pc n vs types) (f, b, σ)).2.1,
        vertexIn nv (is.foldl (hSpanStep pc n vs types) (f, b, σ)).2.2 v) := by
  intro is
  induction is with
  | nil => exact fun f b σ hnv hst hvs his hf hb => ⟨Ext.rfl σ, hst, hf, hb⟩
  | cons i is ih =>
    intro f b σ hnv hst hvs his hf hb
    simp only [List.foldl_cons]
    obtain ⟨he, hs, hof, hob⟩ := hSpanStep_frame nv np pc n vs types f b σ i hnv hst hvs
      (his i (List.mem_cons_self i is)) hf hb
    obtain ⟨he2, hs2, hf2, hb2⟩ := ih (hSpanStep pc n vs types (f, b, σ) i).1
      (hSpanStep pc n vs types (f, b, σ) i).2.1
      (hSpanStep pc n vs types (f, b, σ) i).2.2
      (le_trans hnv he.vlen) hs
      (fun v hv => vertexIn_mono he (hvs v hv))
      (fun j hj => his j (List.mem_cons_of_mem i hj)) hof hob
    exact ⟨Ext.comp he he2, hs2, hf2, hb2⟩

theorem hSplitPolygon_frame (nv np : ℕ) (σ : St) (pr : ℕ) (polygon : HPolygon)
    (hnv : nv ≤ σ.vecs.length) (hnp : np ≤ σ.planes.length) (hst : storeGE nv np σ)
    (hp : polyIn nv np σ polygon) :
    Ext nv np σ (hSplitPolygon σ pr polygon).2 ∧
      storeGE nv np (hSplitPolygon σ pr polygon).2 ∧
      polysIn nv np (hSplitPolygon σ pr polygon).2
        ((hSplitPolygon σ pr polygon).1.coplanarFront ++
          (hSplitPolygon σ pr polygon).1.coplanarBack ++
          (hSplitPolygon σ pr polygon).1.front ++
          (hSplitPolygon σ pr polygon).1.back) := by
  obtain ⟨hf1, hf2, hfv⟩ := hp
  obtain ⟨he, hs, hof, hob⟩ := spanFold_frame nv np (readPlane σ pr)
    (readVec σ (readPlane σ pr).normal) polygon.vertices
    (polygon.vertices.map fun v =>
      if (readVec σ (readPlane σ pr).normal).dot v.position - (readPlane σ pr).w <
          -EPSILON then BACK
      else if EPSILON <
          (readVec σ (readPlane σ pr).normal).dot v.position - (readPlane σ pr).w then
        FRONT
      else COPLANAR)
    (List.range polygon.vertices.length) [] [] σ hnv hst hfv
    (fun i hi => List.mem_range.mp hi)
    (fun _ hx => absurd hx (List.not_mem_nil _))
    (fun _ hx => absurd hx (List.not_mem_nil _))
  simp only [hSplitPolygon]
  set res := (List.range polygon.vertices.length).foldl
    (hSpanStep (readPlane σ pr) (readVec σ (readPlane σ pr).normal) polygon.vertices
      (polygon.vertices.map fun v =>
        if (readVec σ (readPlane σ pr).normal).dot v.position - (readPlane σ pr).w <
            -EPSILON then BACK
        else if EPSILON <
            (readVec σ (readPlane σ pr).normal).dot v.position -
              (readPlane σ pr).w then FRONT
        else COPLANAR)) ([], [], σ) with hres
  obtain ⟨he2, hs2, hp2⟩ := hMkPolygon_frame nv np res.2.2 res.1
    (le_trans hnv he.vlen) (le_trans hnp he.plen) hs hof
  obtain ⟨he3, hs3, hp3⟩ := hMkPolygon_frame nv np (hMkPolygon res.2.2 res.1).2
    res.2.1 (le_trans (le_trans hnv he.vlen) he2.vlen)
    (le_trans (le_trans hnp he.plen) he2.plen) hs2
    (fun v hv => vertexIn_mono he2 (hob v hv))
  obtain ⟨he3b, hs3b, hp3b⟩ := hMkPolygon_frame nv np res.2.2 res.2.1
    (le_trans hnv he.vlen) (le_trans hnp he.plen) hs hob
  split_ifs with h1 h2 h3 h4
  · exact ⟨Ext.rfl σ, hst, by
      intro q hq
      simp only [List.append_nil, List.nil_append] at hq
      rw [List.mem_singleton.mp hq]
      exact ⟨hf1, hf2, hfv⟩⟩
  · exact ⟨Ext.rfl σ, hst, by
      intro q hq
      simp only [List.append_nil, List.nil_append] at hq
      rw [List.mem_singleton.mp hq]
      exact ⟨hf1, hf2, hfv⟩⟩
  · exact ⟨Ext.rfl σ, hst, by
      intro q hq
      simp only [List.append_nil, List.nil_append] at hq
      rw [List.mem_singleton.mp hq]
      exact ⟨hf1, hf2, hfv⟩⟩
  · exact ⟨Ext.rfl σ, hst, by
      intro q hq
      simp only [List.append_nil, List.nil_append] at hq
      rw [List.mem_singleton.mp hq]
      exact ⟨hf1, hf2, hfv⟩⟩
  · refine ⟨Ext.comp he (Ext.comp he2 he3), hs3, ?_⟩
    intro q hq
    simp only [List.nil_append, List.mem_append] at hq
    rcases hq with hq | hq
    · rw [List.mem_singleton.mp hq]
      exact polyIn_mono he3 hp2
    · rw [List.mem_singleton.mp hq]
      exact hp3
  · refine ⟨Ext.comp he he2, hs2, ?_⟩
    intro q hq
    simp only [List.nil_append, List.append_nil, List.mem_append] at hq
    rw [List.mem_singleton.mp hq]
    exact hp2
  · refine ⟨Ext.comp he he3b, hs3b, ?_⟩
    intro q hq
    simp only [List.nil_append, List.append_nil, List.mem_append] at hq
    rw [List.mem_singleton.mp hq]
    exact hp3b
  · refine ⟨he, hs, ?_⟩
    intro q hq
    simp at hq

end Heap

namespace Heap

theorem nodeIn_empty (nv np : ℕ) (σ : St) : nodeIn nv np σ emptyHNode := by
  simp only [emptyHNode, nodeIn]
  exact ⟨fun r hr => absurd hr (Option.not_mem_none r),
    fun p hp => absurd hp (List.not_mem_nil p),
    fun t ht => absurd ht (Option.not_mem_none t),
    fun t ht => absurd ht (Option.not_mem_none t)⟩

theorem nodeIn_getD (nv np : ℕ) (σ : St) (copt : Option HNode)
    (hc : ∀ t ∈ copt, nodeIn nv np σ t) : nodeIn nv np σ (copt.getD emptyHNode) := by
  cases copt with
  | none => exact nodeIn_empty nv np σ
  | some t => exact hc t rfl

theorem hSplitStep_frame (nv np : ℕ) (pr : ℕ) (p : HPolygon)
    (acc : (List HPolygon × List HPolygon × List HPolygon × List HPolygon) × St)
    (hnv : nv ≤ acc.2.vecs.length) (hnp : np ≤ acc.2.planes.length)
    (hst : storeGE nv np acc.2) (hp : polyIn nv np acc.2 p)
    (h1 : polysIn nv np acc.2 acc.1.1) (h2 : polysIn nv np acc.2 acc.1.2.1)
    (h3 : polysIn nv np acc.2 acc.1.2.2.1) (h4 : polysIn nv np acc.2 acc.1.2.2.2) :
    Ext nv np acc.2 (hSplitStep pr acc p).2 ∧ storeGE nv np (hSplitStep pr acc p).2 ∧
      polysIn nv np (hSplitStep pr acc p).2 (hSplitStep pr acc p).1.1 ∧
      polysIn nv np (hSplitStep pr acc p).2 (hSplitStep pr acc p).1.2.1 ∧
      polysIn nv np (hSplitStep pr acc p).2 (hSplitStep pr acc p).1.2.2.1 ∧
      polysIn nv np (hSplitStep pr acc p).2 (hSplitStep pr acc p).1.2.2.2 := by
  obtain ⟨he, hs, hout⟩ := hSplitPolygon_frame nv np acc.2 pr p hnv hnp hst hp
  have hcf : polysIn nv np (hSplitPolygon acc.2 pr p).2
      (hSplitPolygon acc.2 pr p).1.coplanarFront := by
    intro q hq
    exact hout q (by simp [hq])
  have hcb : polysIn nv np (hSplitPolygon acc.2 pr p).2
      (hSplitPolygon acc.2 pr p).1.coplanarBack := by
    intro q hq
    exact hout q (by simp [hq])
  have hfr : polysIn nv np (hSplitPolygon acc.2 pr p).2
      (hSplitPolygon acc.2 pr p).1.front := by
    intro q hq
    exact hout q (by simp [hq])
  have hbk : polysIn nv np (hSplitPolygon acc.2 pr p).2
      (hSplitPolygon acc.2 pr p).1.back := by
    intro q hq
    exact hout q (by simp [hq])
  refine ⟨he, hs, ?_, ?_, ?_, ?_⟩ <;> intro q hq <;>
    simp only [hSplitStep, List.mem_append] at hq
  · rcases hq with hq | hq
    · exact polyIn_mono he (h1 q hq)
    · exact hcf q hq
  · rcases hq with hq | hq
    · exact polyIn_mono he (h2 q hq)
    · exact hcb q hq
  · rcases hq with hq | hq
    · exact polyIn_mono he (h3 q hq)
    · exact hfr q hq
  · rcases hq with hq | hq
    · exact polyIn_mono he (h4 q hq)
    · exact hbk q hq

theorem hSplitAll_aux (nv np : ℕ) (pr : ℕ) : ∀ (polys : List HPolygon)
    (acc : (List HPolygon × List HPolygon × List HPolygon × List HPolygon) × St),
    nv ≤ acc.2.vecs.length → np ≤ acc.2.planes.length → storeGE nv np acc.2 →
    polysIn nv np acc.2 polys →
    polysIn nv np acc.2 acc.1.1 → polysIn nv np acc.2 acc.1.2.1 →
    polysIn nv np acc.2 acc.1.2.2.1 → polysIn nv np acc.2 acc.1.2.2.2 →
    Ext nv np acc.2 (polys.foldl (hSplitStep pr) acc).2 ∧
      storeGE nv np (polys.foldl (hSplitStep pr) acc).2 ∧
      polysIn nv np (polys.foldl (hSplitStep pr) acc).2
        (polys.foldl (hSplitStep pr) acc).1.1 ∧
      polysIn nv np (polys.foldl (hSplitStep pr) acc).2
        (polys.foldl (hSplitStep pr) acc).1.2.1 ∧
      polysIn nv np (polys.foldl (hSplitStep pr) acc).2
        (polys.foldl (hSplitStep pr) acc).1.2.2.1 ∧
      polysIn nv np (polys.foldl (hSplitStep pr) acc).2
        (polys.foldl (hSplitStep pr) acc).1.2.2.2 := by
  intro polys
  induction polys with
  | nil => exact fun acc hnv hnp hst _ h1 h2 h3 h4 => ⟨Ext.rfl _, hst, h1, h2, h3, h4⟩
  | cons p ps ih =>
    intro acc hnv hnp hst hpolys h1 h2 h3 h4
    simp only [List.foldl_cons]
    obtain ⟨he, hs, g1, g2, g3, g4⟩ := hSplitStep_frame nv np pr p acc hnv hnp hst
      (hpolys p (List.mem_cons_self p ps)) h1 h2 h3 h4
    obtain ⟨he2, hs2, k1, k2, k3, k4⟩ := ih (hSplitStep pr acc p)
      (le_trans hnv he.vlen) (le_trans hnp he.plen) hs
      (fun q hq => polyIn_mono he (hpolys q (List.mem_cons_of_mem p hq))) g1 g2 g3 g4
    exact ⟨Ext.comp he he2, hs2, k1, k2, k3, k4⟩

theorem hSplitAll_frame (nv np : ℕ) (σ : St) (pr : ℕ) (polys : List HPolygon)
    (hnv : nv ≤ σ.vecs.length) (hnp : np ≤ σ.planes.length) (hst : storeGE nv np σ)
    (hpolys : polysIn nv np σ polys) :
    Ext nv np σ (hSplitAll σ pr polys).2 ∧ storeGE nv np (hSplitAll σ pr polys).2 ∧
      polysIn nv np (hSplitAll σ pr polys).2 (hSplitAll σ pr polys).1.1 ∧
      polysIn nv np (hSplitAll σ pr polys).2 (hSplitAll σ pr polys).1.2.1 ∧
      polysIn nv np (hSplitAll σ pr polys).2 (hSplitAll σ pr polys).1.2.2.1 ∧
      polysIn nv np (hSplitAll σ pr polys).2 (hSplitAll σ pr polys).1.2.2.2 :=
  hSplitAll_aux nv np pr polys ((([], [], [], []), σ)) hnv hnp hst hpolys
    (fun _ hx => absurd hx (List.not_mem_nil _)) (fun _ hx => absurd hx (List.not_mem_nil _))
    (fun _ hx => absurd hx (List.not_mem_nil _)) (fun _ hx => absurd hx (List.not_mem_nil _))

end Heap

namespace Heap

theorem hBuild_frame (nv np : ℕ) : ∀ (fuel : ℕ) (node : HNode) (polys : List HPolygon)
    (σ : St), nv ≤ σ.vecs.length → np ≤ σ.planes.length → storeGE nv np σ →
    nodeIn nv np σ node → polysIn nv np σ polys →
    Ext nv np σ (hBuild fuel node polys σ).2 ∧
      storeGE nv np (hBuild fuel node polys σ).2 ∧
      nodeIn nv np (hBuild fuel node polys σ).2 (hBuild fuel node polys σ).1 := by
  intro fuel
  induction fuel with
  | zero =>
    intro node polys σ hnv hnp hst hnode hpolys
    exact ⟨Ext.rfl σ, hst, hnode⟩
  | succ f ih =>
    intro node polys σ hnv hnp hst hnode hpolys
    cases node with
    | mk pl ps fr bk =>
      simp only [nodeIn] at hnode
      obtain ⟨hn1, hn2, hn3, hn4⟩ := hnode
      simp only [hBuild, HNode.plane, HNode.polygons, HNode.front, HNode.back]
      by_cases hguard : polys.length = 0 ∨ 1000 < ps.length
      · rw [if_pos hguard]
        refine ⟨Ext.rfl σ, hst, ?_⟩
        simp only [nodeIn]
        exact ⟨hn1, hn2, hn3, hn4⟩
      · rw [if_neg hguard]
        have hpolys_ne : polys ≠ [] := by
          intro h
          exact hguard (Or.inl (by simp [h]))
        have hplen : 0 < polys.length := List.length_pos.mpr hpolys_ne
        set pr := (match pl with
          | some r => r
          | none => (polys.getD 0 default).plane) with hprdef
        have hpr : np ≤ pr ∧ pr < σ.planes.length := by
          rw [hprdef]
          try clear_value pr
          clear hprdef
          cases pl with
          | some r => exact hn1 r rfl
          | none =>
            have hmem : polys.getD 0 default ∈ polys := by
              rw [List.getD_eq_getElem _ _ hplen]
              exact List.getElem_mem hplen
            have h2 := hpolys _ hmem
            exact ⟨h2.1, h2.2.1⟩
        obtain ⟨heA, hsA, c1, c2, c3, c4⟩ := hSplitAll_frame nv np σ pr polys hnv hnp
          hst hpolys
        set A := hSplitAll σ pr polys with hA
        have hfr : Ext nv np A.2
            (if (A.1.2.2.1).length = 0 then ((fr : Option HNode), A.2)
              else if (A.1.2.2.1).length ≠ polys.length then
                (some (hBuild f (fr.getD emptyHNode) A.1.2.2.1 A.2).1,
                  (hBuild f (fr.getD emptyHNode) A.1.2.2.1 A.2).2)
              else (some (fr.getD emptyHNode), A.2)).2 ∧
            storeGE nv np
            (if (A.1.2.2.1).length = 0 then ((fr : Option HNode), A.2)
              else if (A.1.2.2.1).length ≠ polys.length then
                (some (hBuild f (fr.getD emptyHNode) A.1.2.2.1 A.2).1,
                  (hBuild f (fr.getD emptyHNode) A.1.2.2.1 A.2).2)
              else (some (fr.getD emptyHNode), A.2)).2 ∧
            ∀ t ∈ (if (A.1.2.2.1).length = 0 then ((fr : Option HNode), A.2)
              else if (A.1.2.2.1).length ≠ polys.length then
                (some (hBuild f (fr.getD emptyHNode) A.1.2.2.1 A.2).1,
                  (hBuild f (fr.getD emptyHNode) A.1.2.2.1 A.2).2)
              else (some (fr.getD emptyHNode), A.2)).1,
              nodeIn nv np (if (A.1.2.2.1).length = 0 then ((fr : Option HNode), A.2)
              else if (A.1.2.2.1).length ≠ polys.length then
                (some (hBuild f (fr.getD emptyHNode) A.1.2.2.1 A.2).1,
                  (hBuild f (fr.getD emptyHNode) A.1.2.2.1 A.2).2)
              else (some (fr.getD emptyHNode), A.2)).2 t := by
          split_ifs with g1 g2
          · exact ⟨Ext.rfl _, hsA, fun t ht =>
              nodeIn_mono heA (hn3 t ht)⟩
          · obtain ⟨heB, hsB, hnB⟩ := ih (fr.getD emptyHNode) A.1.2.2.1 A.2
              (le_trans hnv heA.vlen) (le_trans hnp heA.plen) hsA
              (nodeIn_getD nv np A.2 fr (fun t ht => nodeIn_mono heA (hn3 t ht))) c3
            exact ⟨heB, hsB, fun t ht => by
              obtain rfl := Option.mem_some_iff.mp ht
              exact hnB⟩
          · exact ⟨Ext.rfl _, hsA, fun t ht => by
              obtain rfl := Option.mem_some_iff.mp ht
              exact nodeIn_getD nv np A.2 fr (fun t2 ht2 => nodeIn_mono heA (hn3 t2 ht2))⟩
        obtain ⟨heF, hsF, hnF⟩ := hfr
        set FR := (if (A.1.2.2.1).length = 0 then ((fr : Option HNode), A.2)
          else if (A.1.2.2.1).length ≠ polys.length then
            (some (hBuild f (fr.getD emptyHNode) A.1.2.2.1 A.2).1,
              (hBuild f (fr.getD emptyHNode) A.1.2.2.1 A.2).2)
          else (some (fr.getD emptyHNode), A.2)) with hFR
        have hbk : Ext nv np FR.2
            (if (A.1.2.2.2).length = 0 then ((bk : Option HNode), FR.2)
              else if (A.1.2.2.2).length ≠ polys.length then
                (some (hBuild f (bk.getD emptyHNode) A.1.2.2.2 FR.2).1,
                  (hBuild f (bk.getD emptyHNode) A.1.2.2.2 FR.2).2)
              else (some (bk.getD emptyHNode), FR.2)).2 ∧
            storeGE nv np
            (if (A.1.2.2.2).length = 0 then ((bk : Option HNode), FR.2)
              else if (A.1.2.2.2).length ≠ polys.length then
                (some (hBuild f (bk.getD emptyHNode) A.1.2.2.2 FR.2).1,
                  (hBuild f (bk.getD emptyHNode) A.1.2.2.2 FR.2).2)
              else (some (bk.getD emptyHNode), FR.2)).2 ∧
            ∀ t ∈ (if (A.1.2.2.2).length = 0 then ((bk : Option HNode), FR.2)
              else if (A.1.2.2.2).length ≠ polys.length then
                (some (hBuild f (bk.getD emptyHNode) A.1.2.2.2 FR.2).1,
                  (hBuild f (bk.getD emptyHNode) A.1.2.2.2 FR.2).2)
              else (some (bk.getD emptyHNode), FR.2)).1,
              nodeIn nv np (if (A.1.2.2.2).length = 0 then ((bk : Option HNode), FR.2)
              else if (A.1.2.2.2).length ≠ polys.length then
                (some (hBuild f (bk.getD emptyHNode) A.1.2.2.2 FR.2).1,
                  (hBuild f (bk.getD emptyHNode) A.1.2.2.2 FR.2).2)
              else (some (bk.getD emptyHNode), FR.2)).2 t := by
          split_ifs with g1 g2
          · exact ⟨Ext.rfl _, hsF, fun t ht =>
              nodeIn_mono (Ext.comp heA heF) (hn4 t ht)⟩
          · obtain ⟨heB, hsB, hnB⟩ := ih (bk.getD emptyHNode) A.1.2.2.2 FR.2
              (le_trans hnv (Ext.comp heA heF).vlen)
              (le_trans hnp (Ext.comp heA heF).plen) hsF
              (nodeIn_getD nv np FR.2 bk
                (fun t ht => nodeIn_mono (Ext.comp heA heF) (hn4 t ht)))
              (polysIn_mono heF c4)
            exact ⟨heB, hsB, fun t ht => by
              obtain rfl := Option.mem_some_iff.mp ht
              exact hnB⟩
          · exact ⟨Ext.rfl _, hsF, fun t ht => by
              obtain rfl := Option.mem_some_iff.mp ht
              exact nodeIn_getD nv np FR.2 bk
                (fun t2 ht2 => nodeIn_mono (Ext.comp heA heF) (hn4 t2 ht2))⟩
        obtain ⟨heK, hsK, hnK⟩ := hbk
        set BK := (if (A.1.2.2.2).length = 0 then ((bk : Option HNode), FR.2)
          else if (A.1.2.2.2).length ≠ polys.length then
            (some (hBuild f (bk.getD emptyHNode) A.1.2.2.2 FR.2).1,
              (hBuild f (bk.getD emptyHNode) A.1.2.2.2 FR.2).2)
          else (some (bk.getD emptyHNode), FR.2)) with hBK
        have heall : Ext nv np σ BK.2 := Ext.comp heA (Ext.comp heF heK)
        refine ⟨heall, hsK, ?_⟩
        simp only [nodeIn]
        refine ⟨?_, ?_, ?_, ?_⟩
        · intro r hr
          obtain rfl := Option.mem_some_iff.mp hr
          exact ⟨hpr.1, lt_of_lt_of_le hpr.2 heall.plen⟩
        · intro q hq
          rcases List.mem_append.mp hq with hq | hq
          · exact polyIn_mono heall (hn2 q hq)
          · rcases List.mem_append.mp hq with hq | hq
            · exact polyIn_mono (Ext.comp heF heK) (c1 q hq)
            · exact polyIn_mono (Ext.comp heF heK) (c2 q hq)
        · intro t ht
          exact nodeIn_mono heK (hnF t ht)
        · intro t ht
          exact hnK t ht

theorem hAllPolygons_eq (pl : Option ℕ) (ps : List HPolygon) (fr bk : Option HNode) :
    hAllPolygons (.mk pl ps fr bk) =
      ps ++ (match fr with | none => [] | some t => hAllPolygons t) ++
        (match bk with | none => [] | some t => hAllPolygons t) := by
  rw [hAllPolygons.eq_def]

theorem hClipPolygons_none (ps : List HPolygon) (fr bk : Option HNode)
    (polys : List HPolygon) (σ : St) :
    hClipPolygons (.mk none ps fr bk) polys σ = (polys, σ) := by
  rw [hClipPolygons.eq_def]

theorem hClipPolygons_some (pr : ℕ) (ps : List HPolygon) (fr bk : Option HNode)
    (polys : List HPolygon) (σ : St) :
    hClipPolygons (.mk (some pr) ps fr bk) polys σ =
      (let a := hSplitAll σ pr polys
       let front := a.1.1 ++ a.1.2.2.1
       let back := a.1.2.1 ++ a.1.2.2.2
       let f2 := match fr with
         | none => (front, a.2)
         | some t => hClipPolygons t front a.2
       let b2 := match bk with
         | none => (back, f2.2)
         | some t => hClipPolygons t back f2.2
       (f2.1 ++ b2.1, b2.2)) := by
  rw [hClipPolygons.eq_def]

theorem hAllPolygons_in (nv np : ℕ) (σ : St) :
    ∀ t : HNode, nodeIn nv np σ t → polysIn nv np σ (hAllPolygons t)
  | .mk pl ps fr bk, ht => by
    simp only [nodeIn] at ht
    obtain ⟨h1, h2, h3, h4⟩ := ht
    simp only [hAllPolygons_eq]
    intro q hq
    rcases List.mem_append.mp hq with hq | hq
    · rcases List.mem_append.mp hq with hq | hq
      · exact h2 q hq
      · cases fr with
        | none => exact absurd hq (List.not_mem_nil q)
        | some t => exact hAllPolygons_in nv np σ t (h3 t rfl) q hq
    · cases bk with
      | none => exact absurd hq (List.not_mem_nil q)
      | some t => exact hAllPolygons_in nv np σ t (h4 t rfl) q hq

theorem hClipPolygons_frame (nv np : ℕ) :
    ∀ (t : HNode) (polys : List HPolygon) (σ : St),
      nv ≤ σ.vecs.length → np ≤ σ.planes.length → storeGE nv np σ →
      polysIn nv np σ polys →
      Ext nv np σ (hClipPolygons t polys σ).2 ∧
        storeGE nv np (hClipPolygons t polys σ).2 ∧
        polysIn nv np (hClipPolygons t polys σ).2 (hClipPolygons t polys σ).1
  | .mk none ps fr bk, polys, σ, hnv, hnp, hst, hpolys => by
    simp only [hClipPolygons_none]
    exact ⟨Ext.rfl σ, hst, hpolys⟩
  | .mk (some pr) ps fr bk, polys, σ, hnv, hnp, hst, hpolys => by
    simp only [hClipPolygons_some]
    obtain ⟨heA, hsA, c1, c2, c3, c4⟩ := hSplitAll_frame nv np σ pr polys hnv hnp hst hpolys
    set A := hSplitAll σ pr polys with hA
    have hfront : polysIn nv np A.2 (A.1.1 ++ A.1.2.2.1) := by
      intro q hq
      rcases List.mem_append.mp hq with hq | hq
      · exact c1 q hq
      · exact c3 q hq
    have hback : polysIn nv np A.2 (A.1.2.1 ++ A.1.2.2.2) := by
      intro q hq
      rcases List.mem_append.mp hq with hq | hq
      · exact c2 q hq
      · exact c4 q hq
    set F := (match fr with
      | none => (A.1.1 ++ A.1.2.2.1, A.2)
      | some t => hClipPolygons t (A.1.1 ++ A.1.2.2.1) A.2) with hF
    have hf : Ext nv np A.2 F.2 ∧ storeGE nv np F.2 ∧ polysIn nv np F.2 F.1 := by
      rw [hF]
      try clear_value F
      clear hF
      cases fr with
      | none => exact ⟨Ext.rfl _, hsA, hfront⟩
      | some t =>
        exact hClipPolygons_frame nv np t (A.1.1 ++ A.1.2.2.1) A.2 (le_trans hnv heA.vlen)
          (le_trans hnp heA.plen) hsA hfront
    set B := (match bk with
      | none => (A.1.2.1 ++ A.1.2.2.2, F.2)
      | some t => hClipPolygons t (A.1.2.1 ++ A.1.2.2.2) F.2) with hB
    have hb : Ext nv np F.2 B.2 ∧ storeGE nv np B.2 ∧ polysIn nv np B.2 B.1 := by
      rw [hB]
      try clear_value B
      clear hB
      cases bk with
      | none => exact ⟨Ext.rfl _, hf.2.1, fun q hq => polyIn_mono hf.1 (hback q hq)⟩
      | some t =>
        exact hClipPolygons_frame nv np t (A.1.2.1 ++ A.1.2.2.2) F.2
          (le_trans (le_trans hnv heA.vlen) hf.1.vlen)
          (le_trans (le_trans hnp heA.plen) hf.1.plen) hf.2.1
          (fun q hq => polyIn_mono hf.1 (hback q hq))
    refine ⟨Ext.comp heA (Ext.comp hf.1 hb.1), hb.2.1, ?_⟩
    intro q hq
    rcases List.mem_append.mp hq with hq | hq
    · exact polyIn_mono hb.1 (hf.2.2 q hq)
    · exact hb.2.2 q hq

theorem hClipTo_eq (pl : Option ℕ) (ps : List HPolygon) (fr bk : Option HNode)
    (bsp : HNode) (σ : St) :
    hClipTo (.mk pl ps fr bk) bsp σ =
      (let a := hClipPolygons bsp ps σ
       let fr2 := match fr with
         | none => ((none : Option HNode), a.2)
         | some t =>
           let b := hClipTo t bsp a.2
           (some b.1, b.2)
       let bk2 := match bk with
         | none => ((none : Option HNode), fr2.2)
         | some t =>
           let b := hClipTo t bsp fr2.2
           (some b.1, b.2)
       (.mk pl a.1 fr2.1 bk2.1, bk2.2)) := by
  rw [hClipTo.eq_def]

theorem hClipTo_frame (nv np : ℕ) :
    ∀ (t bsp : HNode) (σ : St),
      nv ≤ σ.vecs.length → np ≤ σ.planes.length → storeGE nv np σ →
      nodeIn nv np σ t →
      Ext nv np σ (hClipTo t bsp σ).2 ∧ storeGE nv np (hClipTo t bsp σ).2 ∧
        nodeIn nv np (hClipTo t bsp σ).2 (hClipTo t bsp σ).1
  | .mk pl ps fr bk, bsp, σ, hnv, hnp, hst, hnode => by
    simp only [hClipTo_eq]
    simp only [nodeIn] at hnode
    obtain ⟨h1, h2, h3, h4⟩ := hnode
    obtain ⟨heA, hsA, hA2⟩ := hClipPolygons_frame nv np bsp ps σ hnv hnp hst h2
    set A := hClipPolygons bsp ps σ with hA
    set F := (match fr with
      | none => ((none : Option HNode), A.2)
      | some t =>
        let b := hClipTo t bsp A.2
        (some b.1, b.2)) with hF
    have hf : Ext nv np A.2 F.2 ∧ storeGE nv np F.2 ∧
        ∀ t2 ∈ F.1, nodeIn nv np F.2 t2 := by
      rw [hF]
      try clear_value F
      clear hF
      cases fr with
      | none => exact ⟨Ext.rfl _, hsA, fun t2 ht2 => absurd ht2 (Option.not_mem_none t2)⟩
      | some t =>
        obtain ⟨he, hs, hn⟩ := hClipTo_frame nv np t bsp A.2 (le_trans hnv heA.vlen)
          (le_trans hnp heA.plen) hsA (nodeIn_mono heA (h3 t rfl))
        exact ⟨he, hs, fun t2 ht2 => by
          obtain rfl := Option.mem_some_iff.mp ht2
          exact hn⟩
    set B := (match bk with
      | none => ((none : Option HNode), F.2)
      | some t =>
        let b := hClipTo t bsp F.2
        (some b.1, b.2)) with hB
    have hb : Ext nv np F.2 B.2 ∧ storeGE nv np B.2 ∧
        ∀ t2 ∈ B.1, nodeIn nv np B.2 t2 := by
      rw [hB]
      try clear_value B
      clear hB
      cases bk with
      | none => exact ⟨Ext.rfl _, hf.2.1, fun t2 ht2 => absurd ht2 (Option.not_mem_none t2)⟩
      | some t =>
        obtain ⟨he, hs, hn⟩ := hClipTo_frame nv np t bsp F.2
          (le_trans (le_trans hnv heA.vlen) hf.1.vlen)
          (le_trans (le_trans hnp heA.plen) hf.1.plen) hf.2.1
          (nodeIn_mono (Ext.comp heA hf.1) (h4 t rfl))
        exact ⟨he, hs, fun t2 ht2 => by
          obtain rfl := Option.mem_some_iff.mp ht2
          exact hn⟩
    refine ⟨Ext.comp heA (Ext.comp hf.1 hb.1), hb.2.1, ?_⟩
    simp only [nodeIn]
    refine ⟨?_, ?_, ?_, ?_⟩
    · intro r hr
      exact ⟨(h1 r hr).1, lt_of_lt_of_le (h1 r hr).2
        (Ext.comp heA (Ext.comp hf.1 hb.1)).plen⟩
    · exact fun q hq => polyIn_mono (Ext.comp hf.1 hb.1) (hA2 q hq)
    · exact fun t2 ht2 => nodeIn_mono hb.1 (hf.2.2 t2 ht2)
    · exact fun t2 ht2 => hb.2.2 t2 ht2

theorem hInvert_eq (pl : Option ℕ) (ps : List HPolygon) (fr bk : Option HNode) (σ : St) :
    hInvert (.mk pl ps fr bk) σ =
      (let a := hFlipAll σ ps
       let σ1 := match pl with
         | none => a.2
         | some r =>
           let pc := readPlane a.2 r
           let σp := writeVec a.2 pc.normal ((readVec a.2 pc.normal).mul (-1))
           writePlane σp r ⟨pc.normal, -pc.w⟩
       let fr2 := match fr with
         | none => ((none : Option HNode), σ1)
         | some t =>
           let b := hInvert t σ1
           (some b.1, b.2)
       let bk2 := match bk with
         | none => ((none : Option HNode), fr2.2)
         | some t =>
           let b := hInvert t fr2.2
           (some b.1, b.2)
       (.mk pl a.1 bk2.1 fr2.1, bk2.2)) := by
  rw [hInvert.eq_def]

theorem hFlipAllGoal_frame (nv np : ℕ) (σ : St) (ps : List HPolygon)
    (hst : storeGE nv np σ) (hps : polysIn nv np σ ps) :
    Ext nv np σ (hFlipAll σ ps).2 ∧ storeGE nv np (hFlipAll σ ps).2 ∧
      polysIn nv np (hFlipAll σ ps).2 (hFlipAll σ ps).1 :=
  hFlipAll_frame nv np ps [] σ hst hps (fun x hx => absurd hx (List.not_mem_nil x))

theorem hInvert_frame (nv np : ℕ) :
    ∀ (t : HNode) (σ : St),
      nv ≤ σ.vecs.length → np ≤ σ.planes.length → storeGE nv np σ →
      nodeIn nv np σ t →
      Ext nv np σ (hInvert t σ).2 ∧ storeGE nv np (hInvert t σ).2 ∧
        nodeIn nv np (hInvert t σ).2 (hInvert t σ).1
  | .mk pl ps fr bk, σ, hnv, hnp, hst, hnode => by
    simp only [hInvert_eq]
    simp only [nodeIn] at hnode
    obtain ⟨h1, h2, h3, h4⟩ := hnode
    obtain ⟨heA, hsA, hA2⟩ := hFlipAllGoal_frame nv np σ ps hst h2
    set A := hFlipAll σ ps with hA
    set S1 := (match pl with
      | none => A.2
      | some r =>
        let pc := readPlane A.2 r
        let σp := writeVec A.2 pc.normal ((readVec A.2 pc.normal).mul (-1))
        writePlane σp r ⟨pc.normal, -pc.w⟩) with hS1
    have h5 : Ext nv np A.2 S1 ∧ storeGE nv np S1 := by
      rw [hS1]
      try clear_value S1
      clear hS1
      cases pl with
      | none => exact ⟨Ext.rfl _, hsA⟩
      | some r =>
        have hr := h1 r rfl
        have hvn : nv ≤ (readPlane A.2 r).normal :=
          hsA r hr.1 (lt_of_lt_of_le hr.2 heA.plen)
        have he1 := writeVec_ext nv np A.2 (readPlane A.2 r).normal
          ((readVec A.2 (readPlane A.2 r).normal).mul (-1)) hvn
        have hs1 := storeGE_writeVec nv np A.2 (readPlane A.2 r).normal
          ((readVec A.2 (readPlane A.2 r).normal).mul (-1)) hsA
        have he2 := writePlane_ext nv np
          (writeVec A.2 (readPlane A.2 r).normal
            ((readVec A.2 (readPlane A.2 r).normal).mul (-1))) r
          ⟨(readPlane A.2 r).normal, -(readPlane A.2 r).w⟩ hr.1
        have hs2 := storeGE_writePlane nv np
          (writeVec A.2 (readPlane A.2 r).normal
            ((readVec A.2 (readPlane A.2 r).normal).mul (-1))) r
          ⟨(readPlane A.2 r).normal, -(readPlane A.2 r).w⟩ hvn hs1
        exact ⟨Ext.comp he1 he2, hs2⟩
    obtain ⟨heS, hsS⟩ := h5
    set F := (match fr with
      | none => ((none : Option HNode), S1)
      | some t =>
        let b := hInvert t S1
        (some b.1, b.2)) with hF
    have hf : Ext nv np S1 F.2 ∧ storeGE nv np F.2 ∧
        ∀ t2 ∈ F.1, nodeIn nv np F.2 t2 := by
      rw [hF]
      try clear_value F
      clear hF
      cases fr with
      | none => exact ⟨Ext.rfl _, hsS, fun t2 ht2 => absurd ht2 (Option.not_mem_none t2)⟩
      | some t =>
        obtain ⟨he, hs, hn⟩ := hInvert_frame nv np t S1
          (le_trans (le_trans hnv heA.vlen) heS.vlen)
          (le_trans (le_trans hnp heA.plen) heS.plen) hsS
          (nodeIn_mono (Ext.comp heA heS) (h3 t rfl))
        exact ⟨he, hs, fun t2 ht2 => by
          obtain rfl := Option.mem_some_iff.mp ht2
          exact hn⟩
    set B := (match bk with
      | none => ((none : Option HNode), F.2)
      | some t =>
        let b := hInvert t F.2
        (some b.1, b.2)) with hB
    have hb : Ext nv np F.2 B.2 ∧ storeGE nv np B.2 ∧
        ∀ t2 ∈ B.1, nodeIn nv np B.2 t2 := by
      rw [hB]
      try clear_value B
      clear hB
      cases bk with
      | none => exact ⟨Ext.rfl _, hf.2.1, fun t2 ht2 => absurd ht2 (Option.not_mem_none t2)⟩
      | some t =>
        obtain ⟨he, hs, hn⟩ := hInvert_frame nv np t F.2
          (le_trans (le_trans (le_trans hnv heA.vlen) heS.vlen) hf.1.vlen)
          (le_trans (le_trans (le_trans hnp heA.plen) heS.plen) hf.1.plen) hf.2.1
          (nodeIn_mono (Ext.comp heA (Ext.comp heS hf.1)) (h4 t rfl))
        exact ⟨he, hs, fun t2 ht2 => by
          obtain rfl := Option.mem_some_iff.mp ht2
          exact hn⟩
    have heall : Ext nv np σ B.2 := Ext.comp heA (Ext.comp heS (Ext.comp hf.1 hb.1))
    refine ⟨heall, hb.2.1, ?_⟩
    simp only [nodeIn]
    refine ⟨?_, ?_, ?_, ?_⟩
    · intro r hr
      exact ⟨(h1 r hr).1, lt_of_lt_of_le (h1 r hr).2 heall.plen⟩
    · exact fun q hq => polyIn_mono (Ext.comp heS (Ext.comp hf.1 hb.1)) (hA2 q hq)
    · exact fun t2 ht2 => hb.2.2 t2 ht2
    · exact fun t2 ht2 => nodeIn_mono hb.1 (hf.2.2 t2 ht2)

theorem hUnion_frame (nv np : ℕ) (fuel : ℕ) (σ : St) (x y : List HPolygon)
    (hnv : nv ≤ σ.vecs.length) (hnp : np ≤ σ.planes.length) (hst : storeGE nv np σ) :
    Ext nv np σ (hUnion fuel σ x y).2 ∧ storeGE nv np (hUnion fuel σ x y).2 ∧
      polysIn nv np (hUnion fuel σ x y).2 (hUnion fuel σ x y).1 := by
  simp only [hUnion]
  obtain ⟨he1, hs1, hp1⟩ := hCloneCSG_frame nv np σ x hnv hnp hst
  set CX := hCloneCSG σ x with hCX
  obtain ⟨he2, hs2, hn2⟩ := hBuild_frame nv np fuel emptyHNode CX.1 CX.2
    (le_trans hnv he1.vlen) (le_trans hnp he1.plen) hs1 (nodeIn_empty nv np CX.2) hp1
  set A0 := hBuild fuel emptyHNode CX.1 CX.2 with hA0
  obtain ⟨he3, hs3, hp3⟩ := hCloneCSG_frame nv np A0.2 y
    (le_trans hnv (Ext.comp he1 he2).vlen) (le_trans hnp (Ext.comp he1 he2).plen) hs2
  set CY := hCloneCSG A0.2 y with hCY
  obtain ⟨he4, hs4, hn4⟩ := hBuild_frame nv np fuel emptyHNode CY.1 CY.2
    (le_trans hnv (Ext.comp he1 (Ext.comp he2 he3)).vlen)
    (le_trans hnp (Ext.comp he1 (Ext.comp he2 he3)).plen) hs3
    (nodeIn_empty nv np CY.2) hp3
  set B0 := hBuild fuel emptyHNode CY.1 CY.2 with hB0
  obtain ⟨he5, hs5, hn5⟩ := hClipTo_frame nv np A0.1 B0.1 B0.2
    (le_trans hnv (Ext.comp he1 (Ext.comp he2 (Ext.comp he3 he4))).vlen)
    (le_trans hnp (Ext.comp he1 (Ext.comp he2 (Ext.comp he3 he4))).plen) hs4
    (nodeIn_mono (Ext.comp he3 he4) hn2)
  set A1 := hClipTo A0.1 B0.1 B0.2 with hA1
  obtain ⟨he6, hs6, hn6⟩ := hClipTo_frame nv np B0.1 A1.1 A1.2
    (le_trans hnv (Ext.comp he1 (Ext.comp he2 (Ext.comp he3 (Ext.comp he4 he5)))).vlen)
    (le_trans hnp (Ext.comp he1 (Ext.comp he2 (Ext.comp he3 (Ext.comp he4 he5)))).plen) hs5
    (nodeIn_mono he5 hn4)
  set B1 := hClipTo B0.1 A1.1 A1.2 with hB1
  have hE6 : Ext nv np σ B1.2 :=
    Ext.comp he1 (Ext.comp he2 (Ext.comp he3 (Ext.comp he4 (Ext.comp he5 he6))))
  obtain ⟨he7, hs7, hn7⟩ := hInvert_frame nv np B1.1 B1.2
    (le_trans hnv hE6.vlen) (le_trans hnp hE6.plen) hs6 hn6
  set B2 := hInvert B1.1 B1.2 with hB2
  have hE7 : Ext nv np σ B2.2 := Ext.comp hE6 he7
  obtain ⟨he8, hs8, hn8⟩ := hClipTo_frame nv np B2.1 A1.1 B2.2
    (le_trans hnv hE7.vlen) (le_trans hnp hE7.plen) hs7 hn7
  set B3 := hClipTo B2.1 A1.1 B2.2 with hB3
  have hE8 : Ext nv np σ B3.2 := Ext.comp hE7 he8
  obtain ⟨he9, hs9, hn9⟩ := hInvert_frame nv np B3.1 B3.2
    (le_trans hnv hE8.vlen) (le_trans hnp hE8.plen) hs8 hn8
  set B4 := hInvert B3.1 B3.2 with hB4
  have hE9 : Ext nv np σ B4.2 := Ext.comp hE8 he9
  obtain ⟨he10, hs10, hn10⟩ := hBuild_frame nv np fuel A1.1 (hAllPolygons B4.1) B4.2
    (le_trans hnv hE9.vlen) (le_trans hnp hE9.plen) hs9
    (nodeIn_mono (Ext.comp he6 (Ext.comp he7 (Ext.comp he8 he9))) hn5)
    (hAllPolygons_in nv np B4.2 B4.1 hn9)
  set A2 := hBuild fuel A1.1 (hAllPolygons B4.1) B4.2 with hA2
  exact ⟨Ext.comp hE9 he10, hs10, hAllPolygons_in nv np A2.2 A2.1 hn10⟩

theorem hSubtract_frame (nv np : ℕ) (fuel : ℕ) (σ : St) (x y : List HPolygon)
    (hnv : nv ≤ σ.vecs.length) (hnp : np ≤ σ.planes.length) (hst : storeGE nv np σ) :
    Ext nv np σ (hSubtract fuel σ x y).2 ∧ storeGE nv np (hSubtract fuel σ x y).2 ∧
      polysIn nv np (hSubtract fuel σ x y).2 (hSubtract fuel σ x y).1 := by
  simp only [hSubtract]
  obtain ⟨he1, hs1, hp1⟩ := hCloneCSG_frame nv np σ x hnv hnp hst
  set CX := hCloneCSG σ x with hCX
  obtain ⟨he2, hs2, hn2⟩ := hBuild_frame nv np fuel emptyHNode CX.1 CX.2
    (le_trans hnv he1.vlen) (le_trans hnp he1.plen) hs1 (nodeIn_empty nv np CX.2) hp1
  set A0 := hBuild fuel emptyHNode CX.1 CX.2 with hA0
  obtain ⟨he3, hs3, hp3⟩ := hCloneCSG_frame nv np A0.2 y
    (le_trans hnv (Ext.comp he1 he2).vlen) (le_trans hnp (Ext.comp he1 he2).plen) hs2
  set CY := hCloneCSG A0.2 y with hCY
  obtain ⟨he4, hs4, hn4⟩ := hBuild_frame nv np fuel emptyHNode CY.1 CY.2
    (le_trans hnv (Ext.comp he1 (Ext.comp he2 he3)).vlen)
    (le_trans hnp (Ext.comp he1 (Ext.comp he2 he3)).plen) hs3
    (nodeIn_empty nv np CY.2) hp3
  set B0 := hBuild fuel emptyHNode CY.1 CY.2 with hB0
  have hE4 : Ext nv np σ B0.2 := Ext.comp he1 (Ext.comp he2 (Ext.comp he3 he4))
  obtain ⟨he5, hs5, hn5⟩ := hInvert_frame nv np A0.1 B0.2
    (le_trans hnv hE4.vlen) (le_trans hnp hE4.plen) hs4
    (nodeIn_mono (Ext.comp he3 he4) hn2)
  set A1 := hInvert A0.1 B0.2 with hA1
  have hE5 : Ext nv np σ A1.2 := Ext.comp hE4 he5
  obtain ⟨he6, hs6, hn6⟩ := hClipTo_frame nv np A1.1 B0.1 A1.2
    (le_trans hnv hE5.vlen) (le_trans hnp hE5.plen) hs5 hn5
  set A2 := hClipTo A1.1 B0.1 A1.2 with hA2
  have hE6 : Ext nv np σ A2.2 := Ext.comp hE5 he6
  obtain ⟨he7, hs7, hn7⟩ := hClipTo_frame nv np B0.1 A2.1 A2.2
    (le_trans hnv hE6.vlen) (le_trans hnp hE6.plen) hs6
    (nodeIn_mono (Ext.comp he5 he6) hn4)
  set B1 := hClipTo B0.1 A2.1 A2.2 with hB1
  have hE7 : Ext nv np σ B1.2 := Ext.comp hE6 he7
  obtain ⟨he8, hs8, hn8⟩ := hInvert_frame nv np B1.1 B1.2
    (le_trans hnv hE7.vlen) (le_trans hnp hE7.plen) hs7 hn7
  set B2 := hInvert B1.1 B1.2 with hB2
  have hE8 : Ext nv np σ B2.2 := Ext.comp hE7 he8
  obtain ⟨he9, hs9, hn9⟩ := hClipTo_frame nv np B2.1 A2.1 B2.2
    (le_trans hnv hE8.vlen) (le_trans hnp hE8.plen) hs8 hn8
  set B3 := hClipTo B2.1 A2.1 B2.2 with hB3
  have hE9 : Ext nv np σ B3.2 := Ext.comp hE8 he9
  obtain ⟨he10, hs10, hn10⟩ := hInvert_frame nv np B3.1 B3.2
    (le_trans hnv hE9.vlen) (le_trans hnp hE9.plen) hs9 hn9
  set B4 := hInvert B3.1 B3.2 with hB4
  have hE10 : Ext nv np σ B4.2 := Ext.comp hE9 he10
  obtain ⟨he11, hs11, hn11⟩ := hBuild_frame nv np fuel A2.1 (hAllPolygons B4.1) B4.2
    (le_trans hnv hE10.vlen) (le_trans hnp hE10.plen) hs10
    (nodeIn_mono (Ext.comp he7 (Ext.comp he8 (Ext.comp he9 he10))) hn6)
    (hAllPolygons_in nv np B4.2 B4.1 hn10)
  set A3 := hBuild fuel A2.1 (hAllPolygons B4.1) B4.2 with hA3
  have hE11 : Ext nv np σ A3.2 := Ext.comp hE10 he11
  obtain ⟨he12, hs12, hn12⟩ := hInvert_frame nv np A3.1 A3.2
    (le_trans hnv hE11.vlen) (le_trans hnp hE11.plen) hs11 hn11
  set A4 := hInvert A3.1 A3.2 with hA4
  exact ⟨Ext.comp hE11 he12, hs12, hAllPolygons_in nv np A4.2 A4.1 hn12⟩

theorem hIntersect_frame (nv np : ℕ) (fuel : ℕ) (σ : St) (x y : List HPolygon)
    (hnv : nv ≤ σ.vecs.length) (hnp : np ≤ σ.planes.length) (hst : storeGE nv np σ) :
    Ext nv np σ (hIntersect fuel σ x y).2 ∧ storeGE nv np (hIntersect fuel σ x y).2 ∧
      polysIn nv np (hIntersect fuel σ x y).2 (hIntersect fuel σ x y).1 := by
  simp only [hIntersect]
  obtain ⟨he1, hs1, hp1⟩ := hCloneCSG_frame nv np σ x hnv hnp hst
  set CX := hCloneCSG σ x with hCX
  obtain ⟨he2, hs2, hn2⟩ := hBuild_frame nv np fuel emptyHNode CX.1 CX.2
    (le_trans hnv he1.vlen) (le_trans hnp he1.plen) hs1 (nodeIn_empty nv np CX.2) hp1
  set A0 := hBuild fuel emptyHNode CX.1 CX.2 with hA0
  obtain ⟨he3, hs3, hp3⟩ := hCloneCSG_frame nv np A0.2 y
    (le_trans hnv (Ext.comp he1 he2).vlen) (le_trans hnp (Ext.comp he1 he2).plen) hs2
  set CY := hCloneCSG A0.2 y with hCY
  obtain ⟨he4, hs4, hn4⟩ := hBuild_frame nv np fuel emptyHNode CY.1 CY.2
    (le_trans hnv (Ext.comp he1 (Ext.comp he2 he3)).vlen)
    (le_trans hnp (Ext.comp he1 (Ext.comp he2 he3)).plen) hs3
    (nodeIn_empty nv np CY.2) hp3
  set B0 := hBuild fuel emptyHNode CY.1 CY.2 with hB0
  have hE4 : Ext nv np σ B0.2 := Ext.comp he1 (Ext.comp he2 (Ext.comp he3 he4))
  obtain ⟨he5, hs5, hn5⟩ := hInvert_frame nv np A0.1 B0.2
    (le_trans hnv hE4.vlen) (le_trans hnp hE4.plen) hs4
    (nodeIn_mono (Ext.comp he3 he4) hn2)
  set A1 := hInvert A0.1 B0.2 with hA1
  have hE5 : Ext nv np σ A1.2 := Ext.comp hE4 he5
  obtain ⟨he6, hs6, hn6⟩ := hClipTo_frame nv np B0.1 A1.1 A1.2
    (le_trans hnv hE5.vlen) (le_trans hnp hE5.plen) hs5
    (nodeIn_mono he5 hn4)
  set B1 := hClipTo B0.1 A1.1 A1.2 with hB1
  have hE6 : Ext nv np σ B1.2 := Ext.comp hE5 he6
  obtain ⟨he7, hs7, hn7⟩ := hInvert_frame nv np B1.1 B1.2
    (le_trans hnv hE6.vlen) (le_trans hnp hE6.plen) hs6 hn6
  set B2 := hInvert B1.1 B1.2 with hB2
  have hE7 : Ext nv np σ B2.2 := Ext.comp hE6 he7
  obtain ⟨he8, hs8, hn8⟩ := hClipTo_frame nv np A1.1 B2.1 B2.2
    (le_trans hnv hE7.vlen) (le_trans hnp hE7.plen) hs7
    (nodeIn_mono (Ext.comp he6 he7) hn5)
  set A2 := hClipTo A1.1 B2.1 B2.2 with hA2
  have hE8 : Ext nv np σ A2.2 := Ext.comp hE7 he8
  obtain ⟨he9, hs9, hn9⟩ := hClipTo_frame nv np B2.1 A2.1 A2.2
    (le_trans hnv hE8.vlen) (le_trans hnp hE8.plen) hs8
    (nodeIn_mono he8 hn7)
  set B3 := hClipTo B2.1 A2.1 A2.2 with hB3
  have hE9 : Ext nv np σ B3.2 := Ext.comp hE8 he9
  obtain ⟨he10, hs10, hn10⟩ := hBuild_frame nv np fuel A2.1 (hAllPolygons B3.1) B3.2
    (le_trans hnv hE9.vlen) (le_trans hnp hE9.plen) hs9
    (nodeIn_mono he9 hn8)
    (hAllPolygons_in nv np B3.2 B3.1 hn9)
  set A3 := hBuild fuel A2.1 (hAllPolygons B3.1) B3.2 with hA3
  have hE10 : Ext nv np σ A3.2 := Ext.comp hE9 he10
  obtain ⟨he11, hs11, hn11⟩ := hInvert_frame nv np A3.1 A3.2
    (le_trans hnv hE10.vlen) (le_trans hnp hE10.plen) hs10 hn10
  set A4 := hInvert A3.1 A3.2 with hA4
  exact ⟨Ext.comp hE10 he11, hs11, hAllPolygons_in nv np A4.2 A4.1 hn11⟩

theorem hInverse_frame (nv np : ℕ) (σ : St) (x : List HPolygon)
    (hnv : nv ≤ σ.vecs.length) (hnp : np ≤ σ.planes.length) (hst : storeGE nv np σ) :
    Ext nv np σ (hInverse σ x).2 ∧ storeGE nv np (hInverse σ x).2 ∧
      polysIn nv np (hInverse σ x).2 (hInverse σ x).1 := by
  simp only [hInverse]
  obtain ⟨he1, hs1, hp1⟩ := hCloneCSG_frame nv np σ x hnv hnp hst
  set C := hCloneCSG σ x with hC
  obtain ⟨he2, hs2, hp2⟩ := hFlipAllGoal_frame nv np C.2 C.1 hs1 hp1
  exact ⟨Ext.comp he1 he2, hs2, hp2⟩

theorem derefVertex_ext {nv np : ℕ} {σ σ2 : St} (h : Ext nv np σ σ2) (v : HVertex)
    (hv : v.normal < nv) : derefVertex σ2 v = derefVertex σ v := by
  simp only [derefVertex, h.readVec hv]

theorem derefPolygon_ext {nv np : ℕ} {σ σ2 : St} (h : Ext nv np σ σ2) (p : HPolygon)
    (hp : polyBelow nv np σ p) : derefPolygon σ2 p = derefPolygon σ p := by
  obtain ⟨h1, h2, h3⟩ := hp
  simp only [derefPolygon, derefPlane, h.readPlane h1]
  refine congrArg₂ _ ?_ (congrArg₂ _ (h.readVec h2) (Eq.refl _))
  exact List.map_congr_left fun v hv => derefVertex_ext h v (h3 v hv)

theorem derefCSG_ext {nv np : ℕ} {σ σ2 : St} (h : Ext nv np σ σ2) (ps : List HPolygon)
    (hps : csgBelow nv np σ ps) : derefCSG σ2 ps = derefCSG σ ps := by
  simp only [derefCSG]
  exact List.map_congr_left fun p hp => derefPolygon_ext h p (hps p hp)

end Heap

/-! ### Claim theorems -/

/-- Claim C1: `splitPolygon` classifies every vertex of the input
polygon by the signed value `normal·position − w` with epsilon `1e-5`
(below `−ε` BACK, above `+ε` FRONT, otherwise COPLANAR), ORs the types
into an aggregate; an all-COPLANAR polygon routes whole to
coplanar-front exactly when the dot product of its own plane normal
with the reference normal is positive; a pure FRONT (resp. BACK)
polygon routes whole and unsplit; a SPANNING polygon is split
edge-by-edge, synthesizing a boundary vertex at
`t = (w − normal·vᵢ) / (normal·(vⱼ − vᵢ))` for each side-crossing edge,
and each accumulated ring is emitted only if it retains at least 3
vertices; the input polygon value is left unchanged. -/
theorem c1_splitPolygon_refines_spec (pl : Plane) (p : Polygon) :
    splitPolygon pl p = splitPolygonSpec pl p :=
  splitPolygon_eq_spec pl p

/-- Claim C2 (refuted: code bug): `fromGeometry` never resets the
`faceVertices` accumulator and hands the same array object to every
`Polygon` constructor, so on a two-triangle input (3 indices per face)
both returned polygons end with the same 6-vertex ring — the full
accumulated vertex list — instead of each face's own 3 vertices. -/
theorem c2_fromGeometry_shared_ring_bug :
    fromGeometry? cexGVerts cexFaces none none = some c2csg ∧
    c2csg.polygons.map (fun p => p.vertices.length) = [6, 6] ∧
    cexFaces.map (fun f => f.vertices.length) = [3, 3] ∧
    (c2csg.polygons.getD 0 default).vertices = (c2csg.polygons.getD 1 default).vertices := by
  refine ⟨by decide, by decide, by decide, by decide⟩

/-- Claim C3 (amended): `intersect` performs the sequence: invert `a`;
clip `b` to `a`; invert `b`; clip `a` to `b`; clip `b` to `a`; merge
`b`'s remaining polygons into `a` via a fresh build; invert `a` back;
return `a`'s flattened polygon list.  (The spec's claimed sequence —
inverting both trees up front and clipping `b` to `a` before inverting
`b` — is not what the code does; see the counterexample.) -/
theorem c3_intersect_actual_sequence (fuel : ℕ) (x y : CSG) :
    CSG.intersectOp fuel x y = CSG.intersectAmendedSeq fuel x y := rfl

/-- Claim C3 counterexample: on two concrete spanning triangles the
code's `intersect` differs from the sequence the spec claims. -/
theorem c3_claimed_sequence_differs :
    CSG.intersectOp 2 ⟨[cexT1]⟩ ⟨[cexT2]⟩ ≠
      CSG.intersectClaimedSeq 2 ⟨[cexT1]⟩ ⟨[cexT2]⟩ := by decide

/-- Claim C4: in the store-passing embedding, each of union, subtract,
intersect and inverse leaves both operands' polygon lists entirely
unchanged — every operand cell (vertex normals, plane normal, plane
record) dereferences to the same value after the operation — because
the operations clone their inputs before any mutation and only ever
write cells allocated at or after the operation's start. -/
theorem c4_operations_preserve_operands (fuel : ℕ) (σ : Heap.St)
    (x y : List Heap.HPolygon)
    (hx : Heap.csgBelow σ.vecs.length σ.planes.length σ x)
    (hy : Heap.csgBelow σ.vecs.length σ.planes.length σ y) :
    (Heap.derefCSG (Heap.hUnion fuel σ x y).2 x = Heap.derefCSG σ x ∧
      Heap.derefCSG (Heap.hUnion fuel σ x y).2 y = Heap.derefCSG σ y) ∧
    (Heap.derefCSG (Heap.hSubtract fuel σ x y).2 x = Heap.derefCSG σ x ∧
      Heap.derefCSG (Heap.hSubtract fuel σ x y).2 y = Heap.derefCSG σ y) ∧
    (Heap.derefCSG (Heap.hIntersect fuel σ x y).2 x = Heap.derefCSG σ x ∧
      Heap.derefCSG (Heap.hIntersect fuel σ x y).2 y = Heap.derefCSG σ y) ∧
    (Heap.derefCSG (Heap.hInverse σ x).2 x = Heap.derefCSG σ x ∧
      Heap.derefCSG (Heap.hInverse σ x).2 y = Heap.derefCSG σ y) := by
  have hst : Heap.storeGE σ.vecs.length σ.planes.length σ :=
    fun i hi hlt => absurd (lt_of_le_of_lt hi hlt) (lt_irrefl _)
  obtain ⟨heU, _, _⟩ := Heap.hUnion_frame σ.vecs.length σ.planes.length fuel σ x y
    (le_refl _) (le_refl _) hst
  obtain ⟨heS, _, _⟩ := Heap.hSubtract_frame σ.vecs.length σ.planes.length fuel σ x y
    (le_refl _) (le_refl _) hst
  obtain ⟨heI, _, _⟩ := Heap.hIntersect_frame σ.vecs.length σ.planes.length fuel σ x y
    (le_refl _) (le_refl _) hst
  obtain ⟨heV, _, _⟩ := Heap.hInverse_frame σ.vecs.length σ.planes.length σ x
    (le_refl _) (le_refl _) hst
  exact ⟨⟨Heap.derefCSG_ext heU x hx, Heap.derefCSG_ext heU y hy⟩,
    ⟨Heap.derefCSG_ext heS x hx, Heap.derefCSG_ext heS y hy⟩,
    ⟨Heap.derefCSG_ext heI x hx, Heap.derefCSG_ext heI y hy⟩,
    ⟨Heap.derefCSG_ext heV x hx, Heap.derefCSG_ext heV y hy⟩⟩

/-- Claim C4 witness: the preservation theorem applied to a concrete
store holding two triangles. -/
theorem c4_operations_preserve_operands_witness :
    Heap.csgBelow Heap.w4St.vecs.length Heap.w4St.planes.length Heap.w4St Heap.w4X ∧
    Heap.csgBelow Heap.w4St.vecs.length Heap.w4St.planes.length Heap.w4St Heap.w4Y ∧
    ((Heap.derefCSG (Heap.hUnion 1 Heap.w4St Heap.w4X Heap.w4Y).2 Heap.w4X =
        Heap.derefCSG Heap.w4St Heap.w4X ∧
      Heap.derefCSG (Heap.hUnion 1 Heap.w4St Heap.w4X Heap.w4Y).2 Heap.w4Y =
        Heap.derefCSG Heap.w4St Heap.w4Y) ∧
    (Heap.derefCSG (Heap.hSubtract 1 Heap.w4St Heap.w4X Heap.w4Y).2 Heap.w4X =
        Heap.derefCSG Heap.w4St Heap.w4X ∧
      Heap.derefCSG (Heap.hSubtract 1 Heap.w4St Heap.w4X Heap.w4Y).2 Heap.w4Y =
        Heap.derefCSG Heap.w4St Heap.w4Y) ∧
    (Heap.derefCSG (Heap.hIntersect 1 Heap.w4St Heap.w4X Heap.w4Y).2 Heap.w4X =
        Heap.derefCSG Heap.w4St Heap.w4X ∧
      Heap.derefCSG (Heap.hIntersect 1 Heap.w4St Heap.w4X Heap.w4Y).2 Heap.w4Y =
        Heap.derefCSG Heap.w4St Heap.w4Y) ∧
    (Heap.derefCSG (Heap.hInverse Heap.w4St Heap.w4X).2 Heap.w4X =
        Heap.derefCSG Heap.w4St Heap.w4X ∧
      Heap.derefCSG (Heap.hInverse Heap.w4St Heap.w4X).2 Heap.w4Y =
        Heap.derefCSG Heap.w4St Heap.w4Y)) :=
  ⟨by decide, by decide,
    c4_operations_preserve_operands 1 Heap.w4St Heap.w4X Heap.w4Y (by decide) (by decide)⟩

/-- Claim C5 (amended): `build`'s defensive guard tests the node's own
stored polygon count (`this.polygons.length > 1000`), not the number of
nodes of the tree: once a node owns more than 1000 polygons, `build`
returns without adopting a plane or creating children.  (The claimed
tree-wide node-count invariant is false; see the counterexample.) -/
theorem c5_build_guard_on_polygon_count (fuel : ℕ) (node : Node) (polys : List Polygon)
    (h : 1000 < node.polygons.length) : Node.buildOn fuel node polys = node :=
  buildOn_abort fuel node polys h

/-- Claim C5 witness: the guard theorem applied to a node owning 1001
polygons. -/
theorem c5_build_guard_on_polygon_count_witness :
    1000 < c5node.polygons.length ∧ Node.buildOn 3 c5node [cexT1] = c5node :=
  ⟨by norm_num [c5node, Node.polygons],
    c5_build_guard_on_polygon_count 3 c5node [cexT1] (by norm_num [c5node, Node.polygons])⟩

/-- Claim C5 counterexample: 1002 triangles on parallel planes build a
chain of 1002 nodes — the guard never fires, because every node stores
only one polygon, so the claimed node-count ceiling is exceeded. -/
theorem c5_node_count_exceeds_ceiling :
    1000 < countNodes (Node.buildOn 1002 emptyNode (chainPolys 0 1002)) := by
  rw [countNodes_chain 1002 0 1002 (le_refl _) (by norm_num)]
  norm_num

/-- Claim C6 (amended): `inverse (inverse A)` restores `A` exactly for
CSGs all of whose polygons are triangles whose stored plane equals the
plane computed from their ring (as every constructor-built polygon
satisfies).  (For larger rings `Polygon.clone` recomputes the plane from
the first three vertices of the reversed ring, which need not restore
the original plane; see the counterexample.) -/
theorem c6_inverse_involution_on_triangles (A : CSG)
    (h : ∀ p ∈ A.polygons, p.plane = calculatePlane p.vertices ∧ p.vertices.length = 3) :
    CSG.inverseOp (CSG.inverseOp A) = A := by
  rw [inverse_inverse_eq_map]
  cases A with
  | mk ps =>
    simp only [CSG.mk.injEq]
    have h2 : ps.map (fun p => (Polygon.clone ((Polygon.clone p).flip)).flip) = ps := by
      have h3 := List.map_congr_left (l := ps)
        (f := fun p => (Polygon.clone ((Polygon.clone p).flip)).flip) (g := id)
        (fun p hp => inv2_triangle p (h p hp).1 (h p hp).2)
      rw [h3, List.map_id]
    exact h2

/-- Claim C6 witness: the involution theorem applied to a concrete
two-triangle CSG. -/
theorem c6_inverse_involution_on_triangles_witness :
    (∀ p ∈ cexA.polygons, p.plane = calculatePlane p.vertices ∧ p.vertices.length = 3) ∧
    CSG.inverseOp (CSG.inverseOp cexA) = cexA :=
  ⟨by decide, c6_inverse_involution_on_triangles cexA (by decide)⟩

/-- Claim C6 counterexample: a planar simple quadrilateral whose last
three vertices are collinear is not restored by a double inverse — the
plane recomputed from the reversed ring degenerates to the zero
normal. -/
theorem c6_inverse_involution_fails_on_quad :
    CSG.inverseOp (CSG.inverseOp ⟨[cexQuad]⟩) ≠ ⟨[cexQuad]⟩ := by decide

/-- Claim C7: `clipPolygons` on a plane-less node returns its input
unchanged; on a node with a plane it partitions the input against that
plane (the all-COPLANAR case routing by the sign of the dot product
with the node normal, exactly as in `build`'s splitting), recursively
clips the front set through the front child and the back set through
the back child when present, and returns the clipped front results
concatenated before the clipped back results. -/
theorem c7_clipPolygons_characterization (pl : Plane) (own : List Polygon)
    (fr bk : Option Node) (ps : List Polygon) :
    (Node.mk none own fr bk).clipPolygons ps = ps ∧
    (Node.mk (some pl) own fr bk).clipPolygons ps =
      clipThrough fr (ps.flatMap fun p =>
        (splitPolygonSpec pl p).coplanarFront ++ (splitPolygonSpec pl p).front) ++
      clipThrough bk (ps.flatMap fun p =>
        (splitPolygonSpec pl p).coplanarBack ++ (splitPolygonSpec pl p).back) := by
  constructor
  · rfl
  · have hs : splitPolygonSpec pl = splitPolygon pl :=
      funext fun p => (splitPolygon_eq_spec pl p).symm
    rw [hs]
    cases fr <;> cases bk <;> simp [Node.clipPolygons, clipThrough]

/-- Claim C8 (amended): constructing a polygon from any ring of at
least 3 vertices never throws, whatever the geometry (non-planar,
zero-area, self-intersecting) — the plane simply degenerates.  (The
claim that no public operation raises an error is false for faces with
fewer than 3 indices: `calculatePlane` dereferences `vertices[1]` and
`vertices[2]`, so `fromGeometry` throws on such a face; see the
counterexample.) -/
theorem c8_polygon_construction_no_throw (vs : List Vertex) (h : 3 ≤ vs.length) :
    mkPolygon? vs = some (mkPolygon vs) := by
  simp [mkPolygon?, h]

/-- Claim C8 witness: the no-throw theorem applied to a degenerate
zero-area collinear ring. -/
theorem c8_polygon_construction_no_throw_witness :
    3 ≤ cexCollinear.length ∧ mkPolygon? cexCollinear = some (mkPolygon cexCollinear) :=
  ⟨by decide, c8_polygon_construction_no_throw cexCollinear (by decide)⟩

/-- Claim C8 counterexample: a face with only two vertex indices makes
`fromGeometry` throw (modelled by `none`), as does the bare `Polygon`
constructor on a two-vertex ring. -/
theorem c8_short_face_throws :
    fromGeometry? cexGVerts cexBadFaces none none = none ∧
    mkPolygon? [cexVertex 0 0 0, cexVertex 1 0 0] = none :=
  ⟨by decide, by decide⟩

/-- Claim C9 (amended): intersecting with an empty CSG returns the
flattened polygon list of the BSP tree freshly built from A's cloned
polygons — the empty operand removes nothing, but the result is A's
polygon set only up to the splitting and reordering that `build`
introduces, not A's polygon list itself (see the counterexample). -/
theorem c9_intersect_empty_returns_rebuilt_operand (fuel : ℕ) (A : CSG) :
    CSG.intersectOp fuel A (CSG.fromPolygons []) =
      CSG.fromPolygons (Node.allPolygons (mkBSPNode fuel A.clone.polygons)) :=
  intersect_empty_eq fuel A

/-- Claim C9 counterexample: for a two-triangle CSG whose polygons span
each other's planes, intersecting with the empty CSG yields a polygon
set different from the operand's (the build splits one triangle). -/
theorem c9_intersect_empty_not_operand :
    CSG.intersectOp 4 cexA cexEmpty ≠ cexA ∧
    ¬ (∀ p ∈ (CSG.intersectOp 4 cexA cexEmpty).polygons, p ∈ cexA.polygons) :=
  ⟨by decide, by decide⟩

/-- Claim C10 (refuted: code bug): `build` stores `polygons[0].plane`
on the node without cloning, so the node plane object is aliased with
the first stored polygon's plane; `invert` then negates that one object
twice — once through the polygon flip and once through the node-plane
negation — leaving the plane cell unchanged, where the claim requires
the node plane (and the flipped polygon's plane) to be negated. -/
theorem c10_invert_leaves_aliased_plane_unchanged :
    Heap.hBuild 1 Heap.emptyHNode [Heap.wT] Heap.wSt0 =
      (Heap.HNode.mk (some Heap.wT.plane) [Heap.wT] none none, Heap.wSt0) ∧
    Heap.derefPlane
        (Heap.hInvert (Heap.HNode.mk (some Heap.wT.plane) [Heap.wT] none none)
          Heap.wSt0).2 Heap.wT.plane =
      Heap.derefPlane Heap.wSt0 Heap.wT.plane ∧
    Plane.flip (Heap.derefPlane Heap.wSt0 Heap.wT.plane) ≠
      Heap.derefPlane Heap.wSt0 Heap.wT.plane := by
  refine ⟨rfl, ?_, by decide⟩
  rw [Heap.hInvert_eq]
  decide
